import Mathlib

/-!
# node_exporter collector orchestration (`collector2.go`)

A shallow embedding of the Go package `collector`: the process-wide tables
(`factories`, `initiatedCollectors`, `collectorState`, `forcedCollectors`),
`registerCollector`, `DisableDefaultCollectors`, `collectorFlagAction`,
`NewNodeCollector`, `Describe`, `Collect`, `execute`, `IsNoDataError` and
`pushMetric`, and of the function `NodeCollector::new` of the Rust port that
follows the Go code in the same file.

Conventions of the embedding.

* A Go `map[string]V` is an association list `GoMap V`.  `get?` is the map
  read `m[k]` (with the `ok` flag as `Option`), `set` is the write
  `m[k] = v`, `assign` is a store through the pointer held under `k`.
* `for k := range m` visits the keys of `m` in an order Go leaves
  unspecified.  Every loop over a map takes the visiting order as an explicit
  argument `visit`; the theorems quantify over every `visit` that is a
  permutation of the keys.
* Channel sends and log calls are recorded, in program order, as a list of
  `Event`s.
* A Go panic is the `none` of an `Option` (or `Outcome.panicked`).
* A Go string is a `String`, a sequence of Unicode characters: a Go string
  that is not valid UTF-8 is not a value of the embedding.
* The Prometheus client library is not part of the repository.  Of it the file
  gives `NewDesc` with the checks that make a descriptor carry an error,
  `MustNewConstMetric` with its panics, and `BuildFQName`.
* `Collect` is given twice: as the function `Collect` of a schedule of its
  goroutines, and step by step with the counter of its `WaitGroup`
  (`CollectSteps`).  `Collect_is_a_run` and `CollectSteps_perm_Collect` relate
  the two.
-/

namespace NodeExporter

/-! ## Go maps -/

/-- A Go `map[string]V`, as the list of its entries. -/
abbrev GoMap (V : Type) := List (String × V)

namespace GoMap

variable {V : Type}

/-- The map read `v, ok := m[key]`: the value of the first entry under `key`. -/
def get? : GoMap V → String → Option V
  | [], _ => none
  | (k, v) :: rest, key => if k = key then some v else get? rest key

/-- The keys of the map, in the order of its entries. -/
def keys (m : GoMap V) : List String := m.map Prod.fst

/-- The map write `m[key] = v`: replaces the value under `key`, or adds the entry. -/
def set : GoMap V → String → V → GoMap V
  | [], key, v => [(key, v)]
  | (k, x) :: rest, key, v => if k = key then (k, v) :: rest else (k, x) :: set rest key v

/-- The store `*m[key] = v` through the pointer held under `key`: the cell of
`key` changes, no entry is added or removed. -/
def assign (m : GoMap V) (key : String) (v : V) : GoMap V :=
  m.map (fun e => if e.1 = key then (e.1, v) else e)

/-- The read `m[key]` of a `map[string]bool` without the `ok` flag: the zero
value `false` when `key` is absent. -/
def getBool (m : GoMap Bool) (key : String) : Bool :=
  match m.get? key with
  | some b => b
  | none => false

end GoMap

/-! ## Values of the program -/

/-- A `float64`, represented by the number it denotes. -/
abbrev Float64 := ℚ

/-- A Go `error` object other than `nil`: `ptr` tells objects apart (two
values are the same object exactly when they are equal), `msg` is what
`Error()` returns. -/
structure GoError where
  ptr : Nat
  msg : String
deriving DecidableEq, Repr

/-- The package variable `ErrNoData = errors.New("collector returned no data")`. -/
def ErrNoData : GoError := { ptr := 0, msg := "collector returned no data" }

/-- The Go function `IsNoDataError`: `err == ErrNoData`, a comparison of the
two interface values (`none` is `nil`). -/
def IsNoDataError (err : Option GoError) : Bool :=
  decide (err = some ErrNoData)

/-- A `*slog.Logger`, as the attributes attached to it. -/
structure Logger where
  attrs : List (String × String)
deriving DecidableEq, Repr

/-- The method `logger.With(key, value)`. -/
def Logger.With (l : Logger) (key value : String) : Logger :=
  { attrs := l.attrs ++ [(key, value)] }

/-- The library variable `model.NameValidationScheme`, which says how the names
of metrics and labels are checked. -/
inductive ValidationScheme where
  | LegacyValidation
  | UTF8Validation
deriving DecidableEq, Repr

/-- The library check of one character of a legacy metric name, `i` being its
position: a letter, `_`, `:`, or a digit that is not the first character. -/
def isValidLegacyRune (b : Char) (i : Nat) : Bool :=
  (decide ('a' ≤ b) && decide (b ≤ 'z')) || (decide ('A' ≤ b) && decide (b ≤ 'Z')) ||
    decide (b = '_') || decide (b = ':') ||
    (decide ('0' ≤ b) && decide (b ≤ '9') && decide (i > 0))

/-- The library check of one character of a legacy label name: as for a metric
name, without `:`. -/
def isValidLegacyLabelRune (b : Char) (i : Nat) : Bool :=
  (decide ('a' ≤ b) && decide (b ≤ 'z')) || (decide ('A' ≤ b) && decide (b ≤ 'Z')) ||
    decide (b = '_') || (decide ('0' ≤ b) && decide (b ≤ '9') && decide (i > 0))

/-- Every character, with its position counted from `i`, passes the check `p`. -/
def allRunes (p : Char → Nat → Bool) : List Char → Nat → Bool
  | [], _ => true
  | b :: rest, i => p b i && allRunes p rest (i + 1)

/-- The library function `model.IsValidMetricName`.  Under the legacy scheme
the name is not empty and made of legacy characters; under the UTF-8 scheme it
is not empty and valid UTF-8, which every string of this file is. -/
def IsValidMetricName (scheme : ValidationScheme) (n : String) : Bool :=
  match scheme with
  | .LegacyValidation => decide (n ≠ "") && allRunes isValidLegacyRune n.toList 0
  | .UTF8Validation => decide (n ≠ "")

/-- The library method `model.LabelName.IsValid`. -/
def LabelName.IsValid (scheme : ValidationScheme) (ln : String) : Bool :=
  match scheme with
  | .LegacyValidation => decide (ln ≠ "") && allRunes isValidLegacyLabelRune ln.toList 0
  | .UTF8Validation => decide (ln ≠ "")

/-- The name starts with the reserved `__`. -/
def hasReservedStart : List Char → Bool
  | '_' :: '_' :: _ => true
  | _ => false

/-- The library function `checkLabelName`: a valid label name that does not
start with the reserved `__`. -/
def checkLabelName (scheme : ValidationScheme) (l : String) : Bool :=
  LabelName.IsValid scheme l && !hasReservedStart l.toList

/-- A `*prometheus.Desc` as `prometheus.NewDesc` builds it: fully qualified
name, help text, variable labels and constant labels.  `scheme` is the value
`model.NameValidationScheme` had when `NewDesc` built the descriptor: with it,
the error `NewDesc` recorded in the descriptor is a function of the other
fields (`Desc.hasError`). -/
structure Desc where
  fqName : String
  help : String
  variableLabels : List String
  constLabels : List (String × String)
  scheme : ValidationScheme
deriving DecidableEq, Repr

/-- The library function `prometheus.NewDesc(fqName, help, variableLabels,
constLabels)`, called while `model.NameValidationScheme` is `scheme`. -/
def NewDesc (scheme : ValidationScheme) (fqName help : String) (variableLabels : List String)
    (constLabels : List (String × String)) : Desc :=
  { fqName := fqName, help := help, variableLabels := variableLabels,
    constLabels := constLabels, scheme := scheme }

/-- The test `desc.err != nil`: `NewDesc` has recorded an error in the
descriptor, because the metric name is not valid, a constant or variable label
name does not pass `checkLabelName`, or a label name occurs twice among the
constant and variable labels.  (`NewDesc` also rejects a constant label value
that is not valid UTF-8; every string of this file is valid UTF-8.) -/
def Desc.hasError (d : Desc) : Bool :=
  !IsValidMetricName d.scheme d.fqName ||
    d.constLabels.any (fun e => !checkLabelName d.scheme e.1) ||
    d.variableLabels.any (fun l => !checkLabelName d.scheme l) ||
    !decide ((d.constLabels.map Prod.fst ++ d.variableLabels).Nodup)

/-- The type `prometheus.ValueType`, an integer type: its three constants, and
`unknown` for every other value of the type (its zero value among them). -/
inductive ValueType where
  | CounterValue
  | GaugeValue
  | UntypedValue
  | unknown
deriving DecidableEq, Repr

/-- A `prometheus.Metric` built by `MustNewConstMetric`. -/
structure Metric where
  desc : Desc
  valueType : ValueType
  value : Float64
  labelValues : List String
deriving DecidableEq

/-- The library function `prometheus.MustNewConstMetric`.  It panics (`none`)
when the descriptor carries an error, when the number of label values differs
from the number of variable labels of the descriptor, and when the value type
is none of `CounterValue`, `GaugeValue`, `UntypedValue`.  It also panics on a
label value that is not valid UTF-8: a string of this file is a sequence of
Unicode characters, so such a label value is not a value of the model. -/
def MustNewConstMetric (desc : Desc) (valueType : ValueType) (value : Float64)
    (labelValues : List String) : Option Metric :=
  if desc.hasError then none
  else if labelValues.length ≠ desc.variableLabels.length then none
  else
    match valueType with
    | .unknown => none
    | _ =>
      some { desc := desc, valueType := valueType, value := value, labelValues := labelValues }

/-- The library function `prometheus.BuildFQName`. -/
def BuildFQName (ns subsystem name : String) : String :=
  if name = "" then ""
  else if ns ≠ "" ∧ subsystem ≠ "" then ns ++ "_" ++ subsystem ++ "_" ++ name
  else if ns ≠ "" then ns ++ "_" ++ name
  else if subsystem ≠ "" then subsystem ++ "_" ++ name
  else name

/-- The constant `namespace = "node"`. -/
def nodeNamespace : String := "node"

/-- The value of `model.NameValidationScheme` when the package variables are
initialised.  The default of the library depends on its version; the two
descriptors of this package carry no error under either scheme
(`scrapeDesc_valid`). -/
def packageScheme : ValidationScheme := .LegacyValidation

/-- The package variable `scrapeDurationDesc`. -/
def scrapeDurationDesc : Desc :=
  NewDesc packageScheme
    (BuildFQName nodeNamespace "scrape" "collector_duration_seconds")
    "node_exporter: Duration of a collector scrape."
    ["collector"]
    []

/-- The package variable `scrapeSuccessDesc`. -/
def scrapeSuccessDesc : Desc :=
  NewDesc packageScheme
    (BuildFQName nodeNamespace "scrape" "collector_success")
    "node_exporter: Whether a collector succeeded."
    ["collector"]
    []

/-- A value of the interface `Collector`.  `obj` is the identity of the object
(the index of the factory invocation that created it); `Update` is what one
call `Update(ch)` does: the metrics it sends on the send-only channel `ch`,
in order, and the error it returns. -/
structure Collector where
  obj : Nat
  Update : List Metric × Option GoError
deriving DecidableEq

/-- A registered factory `func(logger *slog.Logger) (Collector, error)`.  On
success it yields the behaviour of the new object; the caller records which
invocation created it. -/
abbrev Factory := Logger → Except GoError (List Metric × Option GoError)

/-- The package-level variables, with `factoryCalls` recording, in order, the
names whose factory has been invoked so far. -/
structure State where
  factories : GoMap Factory
  initiatedCollectors : GoMap Collector
  collectorState : GoMap Bool
  forcedCollectors : GoMap Bool
  factoryCalls : List String

/-! ## Enablement -/

/-- The loop of `DisableDefaultCollectors` over the keys `c` of
`collectorState`, in the order `range` yields them. -/
def disableLoop (forcedCollectors : GoMap Bool) : List String → GoMap Bool → GoMap Bool
  | [], cs => cs
  | c :: rest, cs =>
    if (forcedCollectors.get? c).isNone then
      disableLoop forcedCollectors rest (cs.assign c false)
    else
      disableLoop forcedCollectors rest cs

/-- The Go function `DisableDefaultCollectors`; `visit` is the order in which
`range collectorState` yields the keys. -/
def DisableDefaultCollectors (s : State) (visit : List String) : State :=
  { s with collectorState := disableLoop s.forcedCollectors visit s.collectorState }

/-- The closure returned by `collectorFlagAction(collector)`, run by the flag
parser when the flag of `collector` is given: `forcedCollectors[collector] = true`. -/
def collectorFlagAction (collector : String) (s : State) : State :=
  { s with forcedCollectors := s.forcedCollectors.set collector true }

/-! ## Construction of a `NodeCollector` -/

/-- The errors `NewNodeCollector` returns: the two it builds with
`fmt.Errorf`, and the error of a factory, which it returns as it got it. -/
inductive ConstructionError where
  | missingCollector (filter : String)
  | disabledCollector (filter : String)
  | factoryError (err : GoError)
deriving DecidableEq, Repr

/-- The text of the error, what its method `Error()` returns. -/
def ConstructionError.Error : ConstructionError → String
  | .missingCollector filter => "missing collector: " ++ filter
  | .disabledCollector filter => "disabled collector: " ++ filter
  | .factoryError err => err.msg

/-- The struct `NodeCollector`. -/
structure NodeCollector where
  Collectors : GoMap Collector
  logger : Logger
deriving DecidableEq

/-- What a call of `NewNodeCollector` ends in: `return &NodeCollector{...}, nil`,
`return nil, err`, or the panic of calling a nil factory. -/
inductive Outcome where
  | returned (n : NodeCollector)
  | failed (err : ConstructionError)
  | panicked
deriving DecidableEq

/-- The first loop of `NewNodeCollector`, over `filters`, building the set `f`. -/
def filterLoop (collectorState : GoMap Bool) :
    List String → GoMap Bool → Except ConstructionError (GoMap Bool)
  | [], f => .ok f
  | filter :: rest, f =>
    match collectorState.get? filter with
    | none => .error (.missingCollector filter)
    | some enabled =>
      if !enabled then .error (.disabledCollector filter)
      else filterLoop collectorState rest (f.set filter true)

/-- The second loop of `NewNodeCollector`, over the entries `key, enabled` of
`collectorState` in the order `range` yields them, building `collectors` and
filling `initiatedCollectors`.  A name that is not a key of `collectorState`
is never yielded by `range` and is passed over.  Calling the factory appends
`key` to `factoryCalls`; the object it creates gets the number of earlier
invocations as its identity. -/
def collectorLoop (logger : Logger) (f : GoMap Bool) (collectorState : GoMap Bool) :
    List String → State → GoMap Collector → Outcome × State
  | [], s, collectors => (.returned { Collectors := collectors, logger := logger }, s)
  | key :: rest, s, collectors =>
    match collectorState.get? key with
    | none => collectorLoop logger f collectorState rest s collectors
    | some enabled =>
      if !enabled || (decide (f.length > 0) && !f.getBool key) then
        collectorLoop logger f collectorState rest s collectors
      else
        match s.initiatedCollectors.get? key with
        | some collector =>
          collectorLoop logger f collectorState rest s (collectors.set key collector)
        | none =>
          match s.factories.get? key with
          | none => (.panicked, s)
          | some factory =>
            match factory (logger.With "collector" key) with
            | .error err =>
              (.failed (.factoryError err), { s with factoryCalls := s.factoryCalls ++ [key] })
            | .ok update =>
              collectorLoop logger f collectorState rest
                { s with
                  factoryCalls := s.factoryCalls ++ [key]
                  initiatedCollectors :=
                    s.initiatedCollectors.set key
                      { obj := s.factoryCalls.length, Update := update } }
                (collectors.set key { obj := s.factoryCalls.length, Update := update })

/-- The Go function `NewNodeCollector(logger, filters...)`; `visit` is the order
in which `range collectorState` yields the keys.  The result is the outcome of
the call and the package state it leaves. -/
def NewNodeCollector (s : State) (logger : Logger) (visit : List String)
    (filters : List String) : Outcome × State :=
  match filterLoop s.collectorState filters [] with
  | .error err => (.failed err, s)
  | .ok f => collectorLoop logger f s.collectorState visit s []

/-- The names the second loop of `NewNodeCollector` does not skip: enabled,
and in the set `f` of filters when `f` is not empty. -/
def Selected (collectorState f : GoMap Bool) (key : String) : Prop :=
  collectorState.get? key = some true ∧ (f = [] ∨ f.getBool key = true)

instance (collectorState f : GoMap Bool) (key : String) :
    Decidable (Selected collectorState f key) := by
  unfold Selected
  infer_instance

/-- The factory registered under `key` returns the error `err` when called
with the logger `NewNodeCollector` hands it. -/
def FactoryFails (s : State) (logger : Logger) (key : String) (err : GoError) : Prop :=
  ∃ factory, s.factories.get? key = some factory ∧
    factory (logger.With "collector" key) = .error err

/-- The effective set of the specification: all enabled names when `filters`
is empty, otherwise the enabled names that are among `filters`. -/
def Effective (collectorState : GoMap Bool) (filters : List String) (key : String) : Prop :=
  collectorState.get? key = some true ∧ (filters = [] ∨ key ∈ filters)

instance (collectorState : GoMap Bool) (filters : List String) (key : String) :
    Decidable (Effective collectorState filters key) := by
  unfold Effective
  infer_instance

/-! ## Execution -/

/-- The level of a log record. -/
inductive Level where
  | Debug
  | Info
  | Warn
  | Error
deriving DecidableEq, Repr

/-- One log record written by `execute`: level, message and the attributes
`name`, `duration_seconds` and, when given, `err`. -/
structure Record where
  level : Level
  msg : String
  name : String
  duration_seconds : Float64
  err : Option GoError
deriving DecidableEq

/-- An effect of the program seen from outside: a send on the metric channel
`ch`, or a record written through a logger. -/
inductive Event where
  | send (m : Metric)
  | log (logger : Logger) (r : Record)
deriving DecidableEq

/-- The metrics sent on the channel, in order. -/
def sent : List Event → List Metric
  | [] => []
  | .send m :: rest => m :: sent rest
  | .log _ _ :: rest => sent rest

/-- The records logged, in order. -/
def logged : List Event → List Record
  | [] => []
  | .send _ :: rest => logged rest
  | .log _ r :: rest => r :: logged rest

/-- The Go function `execute(name, c, ch, logger)`: the events it causes, in
order, or `none` when it panics.  `seconds` is the value of
`duration.Seconds()` for the time the call of `Update` took. -/
def execute (name : String) (c : Collector) (logger : Logger) (seconds : Float64) :
    Option (List Event) :=
  let err := c.Update.2
  let logAndSuccess : Event × Float64 :=
    if err ≠ none then
      if IsNoDataError err then
        (.log logger { level := .Debug, msg := "collector returned no data", name := name,
                       duration_seconds := seconds, err := err }, 0)
      else
        (.log logger { level := .Error, msg := "collector failed", name := name,
                       duration_seconds := seconds, err := err }, 0)
    else
      (.log logger { level := .Debug, msg := "collector succeeded", name := name,
                     duration_seconds := seconds, err := none }, 1)
  match MustNewConstMetric scrapeDurationDesc .GaugeValue seconds [name] with
  | none => none
  | some duration =>
    match MustNewConstMetric scrapeSuccessDesc .GaugeValue logAndSuccess.2 [name] with
    | none => none
    | some success =>
      some (c.Update.1.map Event.send ++ [logAndSuccess.1, .send duration, .send success])

/-- One step of goroutine `i`: its next event and the goroutines afterwards,
or `none` when there is no such goroutine or it has finished. -/
def stepTask : List (List Event) → Nat → Option (Event × List (List Event))
  | [], _ => none
  | [] :: _, 0 => none
  | (e :: t) :: ts, 0 => some (e, t :: ts)
  | t :: ts, i + 1 =>
    match stepTask ts i with
    | none => none
    | some (e, ts1) => some (e, t :: ts1)

/-- The events of goroutines running concurrently until all have finished
(`wg.Wait()`): `sched` names the goroutine that takes each step, and when it
is used up the goroutines left run one after the other. -/
def runTasks : List Nat → List (List Event) → List Event
  | [], tasks => tasks.flatten
  | i :: sched, tasks =>
    match stepTask tasks i with
    | none => runTasks sched tasks
    | some (e, tasks1) => e :: runTasks sched tasks1

/-- The goroutines `Collect` starts, one per entry `name, c` of `n.Collectors`
in the order `range` yields them, each running `execute(name, c, ch, n.logger)`. -/
def goroutines (n : NodeCollector) (seconds : String → Float64) :
    List String → Option (List (List Event))
  | [] => some []
  | name :: rest =>
    match n.Collectors.get? name with
    | none => goroutines n seconds rest
    | some c =>
      match execute name c n.logger (seconds name) with
      | none => none
      | some task =>
        match goroutines n seconds rest with
        | none => none
        | some tasks => some (task :: tasks)

/-- The method `NodeCollector.Collect(ch)`: the events up to its return, or
`none` when a goroutine panics.  `visit` is the order of `range n.Collectors`,
`seconds name` the duration measured for collector `name`, `sched` the
interleaving of the goroutines. -/
def Collect (n : NodeCollector) (visit : List String) (seconds : String → Float64)
    (sched : List Nat) : Option (List Event) :=
  match goroutines n seconds visit with
  | none => none
  | some tasks => some (runTasks sched tasks)

/-! ## `Collect` step by step, with its `WaitGroup` -/

/-- A goroutine `Collect` has started: the events of its `execute` caused so
far, the events still to come, and whether it has called `wg.Done()`. -/
structure Goroutine where
  written : List Event
  pending : List Event
  finished : Bool
deriving DecidableEq

/-- A moment of a call of `Collect`: the entries of `n.Collectors` the loop has
not reached yet (each as the events its `execute` will cause), the goroutines
started, the counter of the `WaitGroup`, the events so far, whether `Collect`
has returned, and whether `wg.Done()` has panicked on a counter of zero. -/
structure CollectState where
  unstarted : List (List Event)
  running : List Goroutine
  wg : Nat
  events : List Event
  returned : Bool
  panicked : Bool
deriving DecidableEq

/-- What can happen next in a call of `Collect`: the loop starts the goroutine
of its next entry; goroutine `i` causes its next event; goroutine `i`, its
`execute` over, calls `wg.Done()`; `wg.Wait()` returns and `Collect` with it. -/
inductive Action where
  | start
  | work (i : Nat)
  | finish (i : Nat)
  | wait
deriving DecidableEq

/-- Goroutine `i` causes its next event: the event and the goroutines
afterwards, or `none` when there is no such goroutine or its `execute` is over. -/
def workAt : List Goroutine → Nat → Option (Event × List Goroutine)
  | [], _ => none
  | g :: gs, 0 =>
    match g.pending with
    | [] => none
    | e :: rest =>
      some (e, { written := g.written ++ [e], pending := rest, finished := g.finished } :: gs)
  | g :: gs, i + 1 =>
    match workAt gs i with
    | none => none
    | some (e, gs1) => some (e, g :: gs1)

/-- Goroutine `i` calls `wg.Done()`, which it does once, after its `execute`:
the goroutines afterwards, or `none` when it cannot be at that call. -/
def finishAt : List Goroutine → Nat → Option (List Goroutine)
  | [], _ => none
  | g :: gs, 0 =>
    if g.pending = [] ∧ g.finished = false then
      some ({ written := g.written, pending := g.pending, finished := true } :: gs)
    else none
  | g :: gs, i + 1 =>
    match finishAt gs i with
    | none => none
    | some gs1 => some (g :: gs1)

/-- One step of `Collect`, or `none` when the action cannot happen.  `wg.Wait()`
is reached after the loop and returns when the counter is zero; `wg.Done()`
panics when the counter is zero. -/
def CollectState.step (st : CollectState) : Action → Option CollectState
  | .start =>
    match st.unstarted with
    | [] => none
    | task :: rest =>
      some { st with
             unstarted := rest
             running := st.running ++ [{ written := [], pending := task, finished := false }] }
  | .work i =>
    match workAt st.running i with
    | none => none
    | some (e, running) => some { st with running := running, events := st.events ++ [e] }
  | .finish i =>
    match finishAt st.running i with
    | none => none
    | some running =>
      if st.wg = 0 then some { st with running := running, panicked := true }
      else some { st with running := running, wg := st.wg - 1 }
  | .wait =>
    if st.unstarted = [] ∧ st.wg = 0 ∧ st.returned = false then
      some { st with returned := true }
    else none

/-- The state of `Collect` after `wg.Add(len(n.Collectors))`, before its loop. -/
def collectStart (tasks : List (List Event)) : CollectState :=
  { unstarted := tasks, running := [], wg := tasks.length, events := [],
    returned := false, panicked := false }

/-- The state after a sequence of actions; an action that cannot happen is
passed over. -/
def runActions : CollectState → List Action → CollectState
  | st, [] => st
  | st, a :: rest =>
    match st.step a with
    | none => runActions st rest
    | some st1 => runActions st1 rest

/-- The method `NodeCollector.Collect(ch)` step by step: the state the actions
lead to, or `none` when an `execute` panics. -/
def CollectSteps (n : NodeCollector) (visit : List String) (seconds : String → Float64)
    (actions : List Action) : Option CollectState :=
  match goroutines n seconds visit with
  | none => none
  | some tasks => some (runActions (collectStart tasks) actions)

/-- The goroutines that have not called `wg.Done()`. -/
def active (gs : List Goroutine) : Nat := gs.countP (fun g => !g.finished)

/-- What holds at every moment of a call of `Collect` on the goroutine event
lists `tasks`: the counter of the `WaitGroup` is the number of goroutines not
yet started or not yet done; a goroutine that is done has caused all its
events; what a goroutine has caused is among the events so far, in order; the
events caused and to come of the goroutines are those of `tasks`; `Collect`
has returned only with the loop over and the counter zero; `wg.Done()` has not
panicked; the events so far are those the goroutines have caused. -/
structure CollectInv (tasks : List (List Event)) (st : CollectState) : Prop where
  counter : st.wg = st.unstarted.length + active st.running
  finished : ∀ g ∈ st.running, g.finished = true → g.pending = []
  written : ∀ g ∈ st.running, g.written.Sublist st.events
  script : st.running.map (fun g => g.written ++ g.pending) ++ st.unstarted = tasks
  returned : st.returned = true → st.unstarted = [] ∧ st.wg = 0
  noPanic : st.panicked = false
  interleaved : st.events.Perm (st.running.map (fun g => g.written)).flatten

/-! ## The Rust port -/

/-- The first loop of the Rust function `NodeCollector::new`, over `filters`. -/
def rustFilterLoop (state : GoMap Bool) : List String → Except ConstructionError Unit
  | [] => .ok ()
  | filter :: rest =>
    match state.get? filter with
    | some enabled =>
      if !enabled then .error (.disabledCollector filter)
      else rustFilterLoop state rest
    | none => .error (.missingCollector filter)

/-- The second loop of the Rust function `NodeCollector::new`, over the entries
`key, enabled` of `state` in the order `state.iter()` yields them.  The
`unwrap()` of a missing factory panics; the `?` returns the error of the
factory. -/
def rustCollectorLoop (logger : Logger) (state : GoMap Bool) :
    List String → State → GoMap Collector → Outcome × State
  | [], s, collectors => (.returned { Collectors := collectors, logger := logger }, s)
  | key :: rest, s, collectors =>
    match state.get? key with
    | none => rustCollectorLoop logger state rest s collectors
    | some enabled =>
      if enabled then
        match s.initiatedCollectors.get? key with
        | some collector =>
          rustCollectorLoop logger state rest s (collectors.set key collector)
        | none =>
          match s.factories.get? key with
          | none => (.panicked, s)
          | some factory =>
            match factory (logger.With "collector" key) with
            | .error err =>
              (.failed (.factoryError err), { s with factoryCalls := s.factoryCalls ++ [key] })
            | .ok update =>
              rustCollectorLoop logger state rest
                { s with
                  factoryCalls := s.factoryCalls ++ [key]
                  initiatedCollectors :=
                    s.initiatedCollectors.set key
                      { obj := s.factoryCalls.length, Update := update } }
                (collectors.set key { obj := s.factoryCalls.length, Update := update })
      else
        rustCollectorLoop logger state rest s collectors

/-- The Rust function `NodeCollector::new(logger, filters)` on the tables
`COLLECTOR_STATE`, `INITIATED_COLLECTORS` and `FACTORIES`; `visit` is the order
in which `state.iter()` yields the keys. -/
def NodeCollector.new (s : State) (logger : Logger) (visit : List String)
    (filters : List String) : Outcome × State :=
  match rustFilterLoop s.collectorState filters with
  | .error err => (.failed err, s)
  | .ok _ => rustCollectorLoop logger s.collectorState visit s []

/-! ## Registration and the operations on the package state -/

/-- Modelled from the spec: the cell `kingpin.Flag(...).Default(defaultValue).Bool()`
hands out for a flag whose default is `isDefaultEnabled` (the flag library is
not part of the repository).  The specification has the entry "defaulted to
`default_enabled`". -/
def flagCell (isDefaultEnabled : Bool) : Bool := isDefaultEnabled

/-- The Go function `registerCollector(collector, isDefaultEnabled, factory)`:
`collectorState[collector] = flag` and `factories[collector] = factory`. -/
def registerCollector (collector : String) (isDefaultEnabled : Bool) (factory : Factory)
    (s : State) : State :=
  { s with
    collectorState := s.collectorState.set collector (flagCell isDefaultEnabled)
    factories := s.factories.set collector factory }

/-- The package state at program start: every table empty. -/
def emptyState : State :=
  { factories := []
    initiatedCollectors := []
    collectorState := []
    forcedCollectors := []
    factoryCalls := [] }

/-- An operation on the package state: a registration, the flag action of a
collector, `DisableDefaultCollectors`, or a call of `NewNodeCollector`. -/
inductive Op where
  | register (collector : String) (isDefaultEnabled : Bool) (factory : Factory)
  | force (collector : String)
  | disable (visit : List String)
  | construct (logger : Logger) (visit : List String) (filters : List String)

/-- The package state after the operation. -/
def Op.run (s : State) : Op → State
  | .register collector isDefaultEnabled factory =>
    registerCollector collector isDefaultEnabled factory s
  | .force collector => collectorFlagAction collector s
  | .disable visit => DisableDefaultCollectors s visit
  | .construct logger visit filters => (NewNodeCollector s logger visit filters).2

/-- The package state after a sequence of operations. -/
def runOps (s : State) (ops : List Op) : State := ops.foldl Op.run s

/-- The method `NodeCollector.Describe(ch)`: the descriptors it sends on `ch`,
in order. -/
def Describe (_n : NodeCollector) : List Desc :=
  [scrapeDurationDesc, scrapeSuccessDesc]

/-! ## The metric adapter -/

/-- The number of low bits a conversion to `float64` drops from `n`: the least
`e` with `n / 2 ^ e < 2 ^ 53`, searched in at most `fuel` steps. -/
def float64Shift : Nat → Nat → Nat
  | 0, _ => 0
  | fuel + 1, n => if n < 2 ^ 53 then 0 else float64Shift fuel (n / 2) + 1

/-- The conversion `float64(n)` of a natural number of at most 64 bits: `n`
itself when it has at most 53 bits, otherwise the nearest number with a 53-bit
significand, a tie going to the even significand. -/
def float64OfNat (n : Nat) : Float64 :=
  if n < 2 ^ 53 then (n : ℚ)
  else
    let shift := float64Shift 64 n
    let q := n / 2 ^ shift
    let r := n % 2 ^ shift
    let half := 2 ^ (shift - 1)
    let q1 := if r > half ∨ (r = half ∧ q % 2 = 1) then q + 1 else q
    ((q1 * 2 ^ shift : Nat) : ℚ)

/-- The conversion `float64(i)` of an integer of at most 64 bits. -/
def float64OfInt (i : Int) : Float64 :=
  if i < 0 then - float64OfNat i.natAbs else float64OfNat i.natAbs

/-- A value of type `interface{}` as `pushMetric` receives it, by its dynamic
type.  A pointer is `none` when it is nil and `some x` when it points to `x`.
`other` stands for a value of any dynamic type not listed (a named integer
type, a struct, the nil interface, ...), `goType` being the name of that type.
The integers are not bounded here: no theorem needs the range of the type. -/
inductive GoValue where
  | uint8 (val : Nat)
  | uint16 (val : Nat)
  | uint32 (val : Nat)
  | uint64 (val : Nat)
  | int64 (val : Int)
  | ptrUint8 (val : Option Nat)
  | ptrUint16 (val : Option Nat)
  | ptrUint32 (val : Option Nat)
  | ptrUint64 (val : Option Nat)
  | ptrInt64 (val : Option Int)
  | int8 (val : Int)
  | int16 (val : Int)
  | int32 (val : Int)
  | int (val : Int)
  | uint (val : Nat)
  | float64 (val : Float64)
  | string (val : String)
  | other (goType : String)
deriving DecidableEq

/-- The Go function `pushMetric(ch, fieldDesc, name, value, valueType,
labelValues...)`: the events it causes, or `none` when it panics.  The body
does not use `name`. -/
def pushMetric (fieldDesc : Desc) (_name : String) (value : GoValue) (valueType : ValueType)
    (labelValues : List String) : Option (List Event) :=
  let fVal : Option Float64 :=
    match value with
    | .uint8 val => some (float64OfInt val)
    | .uint16 val => some (float64OfInt val)
    | .uint32 val => some (float64OfInt val)
    | .uint64 val => some (float64OfInt val)
    | .int64 val => some (float64OfInt val)
    | .ptrUint8 val =>
      match val with
      | none => none
      | some x => some (float64OfInt x)
    | .ptrUint16 val =>
      match val with
      | none => none
      | some x => some (float64OfInt x)
    | .ptrUint32 val =>
      match val with
      | none => none
      | some x => some (float64OfInt x)
    | .ptrUint64 val =>
      match val with
      | none => none
      | some x => some (float64OfInt x)
    | .ptrInt64 val =>
      match val with
      | none => none
      | some x => some (float64OfInt x)
    | _ => none
  match fVal with
  | none => some []
  | some f =>
    match MustNewConstMetric fieldDesc valueType f labelValues with
    | none => none
    | some m => some [.send m]

/-- The integer a value of the closed set of `pushMetric` carries: the value
itself, or the one a non-nil pointer points to. -/
def GoValue.integer : GoValue → Option Int
  | .uint8 val => some val
  | .uint16 val => some val
  | .uint32 val => some val
  | .uint64 val => some val
  | .int64 val => some val
  | .ptrUint8 (some x) => some x
  | .ptrUint16 (some x) => some x
  | .ptrUint32 (some x) => some x
  | .ptrUint64 (some x) => some x
  | .ptrInt64 (some x) => some x
  | _ => none

/-- The value is a nil pointer of one of the five pointer types of the closed
set. -/
def GoValue.isNilPointer : GoValue → Bool
  | .ptrUint8 none => true
  | .ptrUint16 none => true
  | .ptrUint32 none => true
  | .ptrUint64 none => true
  | .ptrInt64 none => true
  | _ => false

/-- The dynamic type of the value is in the closed set of `pushMetric`:
`uint8`, `uint16`, `uint32`, `uint64`, `int64` or a pointer to one of them. -/
def GoValue.inClosedSet : GoValue → Bool
  | .uint8 _ => true
  | .uint16 _ => true
  | .uint32 _ => true
  | .uint64 _ => true
  | .int64 _ => true
  | .ptrUint8 _ => true
  | .ptrUint16 _ => true
  | .ptrUint32 _ => true
  | .ptrUint64 _ => true
  | .ptrInt64 _ => true
  | _ => false

/-- The value handed over through a pointer: `x` behind a non-nil pointer for
a value `x` of one of the five integer types. -/
def GoValue.addressOf : GoValue → GoValue
  | .uint8 val => .ptrUint8 (some val)
  | .uint16 val => .ptrUint16 (some val)
  | .uint32 val => .ptrUint32 (some val)
  | .uint64 val => .ptrUint64 (some val)
  | .int64 val => .ptrInt64 (some val)
  | v => v

/-! ## The telemetry of the specification -/

/-- The duration sample of the specification for the collector `name`: the
duration gauge with the elapsed seconds, labelled `name`. -/
def durationSample (name : String) (seconds : Float64) : Metric :=
  { desc := scrapeDurationDesc, valueType := .GaugeValue, value := seconds,
    labelValues := [name] }

/-- The success sample of the specification for the collector `name`: the
success gauge, 1 when `Update` returned no error and 0 otherwise, labelled
`name`. -/
def successSample (name : String) (err : Option GoError) : Metric :=
  { desc := scrapeSuccessDesc, valueType := .GaugeValue,
    value := if err = none then 1 else 0, labelValues := [name] }

/-- The log record of the specification: debug level for success and for the
no-data sentinel, error level for every other error. -/
def scrapeRecord (name : String) (seconds : Float64) (err : Option GoError) : Record :=
  match err with
  | none =>
    { level := .Debug, msg := "collector succeeded", name := name,
      duration_seconds := seconds, err := none }
  | some e =>
    if e = ErrNoData then
      { level := .Debug, msg := "collector returned no data", name := name,
        duration_seconds := seconds, err := some e }
    else
      { level := .Error, msg := "collector failed", name := name,
        duration_seconds := seconds, err := some e }

/-- The domain metrics of the collectors of `n`: what their `Update`s send. -/
def domainMetrics (n : NodeCollector) : List Metric :=
  n.Collectors.flatMap (fun e => e.2.Update.1)

/-- The telemetry of a scrape of `n`: for each collector its duration sample
and its success sample. -/
def telemetry (n : NodeCollector) (seconds : String → Float64) : List Metric :=
  n.Collectors.flatMap
    (fun e => [durationSample e.1 (seconds e.1), successSample e.1 e.2.Update.2])

/-! ## Example data -/

/-- A factory that succeeds with a collector sending no metric. -/
def quietFactory : Factory := fun _ => .ok ([], none)

/-- A factory that fails. -/
def brokenFactory : Factory := fun _ => .error { ptr := 7, msg := "no such device" }

/-- The logger of the examples. -/
def rootLogger : Logger := { attrs := [] }

/-- The registry `cpu: true, meminfo: true, foo: false` with `cpu` forced and
nothing yet initiated; the factory of `meminfo` fails. -/
def exampleState : State :=
  { factories := [("cpu", quietFactory), ("meminfo", brokenFactory), ("foo", quietFactory)]
    initiatedCollectors := []
    collectorState := [("cpu", true), ("meminfo", true), ("foo", false)]
    forcedCollectors := [("cpu", true)]
    factoryCalls := [] }

/-- A collector whose `Update` returns an error that has the text of
`ErrNoData` but is another object. -/
def lookalikeCollector : Collector :=
  { obj := 0, Update := ([], some { ptr := 1, msg := "collector returned no data" }) }

/-- A `NodeCollector` with three collectors: `a` succeeds, `b` returns
`ErrNoData`, `c` sends one metric and then fails. -/
def exampleScrape : NodeCollector :=
  { Collectors :=
      [("a", { obj := 0, Update := ([], none) }),
       ("b", { obj := 1, Update := ([], some ErrNoData) }),
       ("c", { obj := 2,
               Update := ([{ desc := NewDesc .LegacyValidation "node_load1"
                                       "1m load average." [] [],
                             valueType := .GaugeValue, value := 3, labelValues := [] }],
                          some { ptr := 9, msg := "read error" }) })]
    logger := rootLogger }

/-- A descriptor with one variable label, for the examples. -/
def diskDesc : Desc :=
  NewDesc .LegacyValidation "node_disk_reads_completed_total"
    "The total number of reads completed successfully." ["device"] []

/-- A registry of two enabled collectors, `cpu` and `meminfo`, both with a
factory that succeeds. -/
def portState : State :=
  { factories := [("cpu", quietFactory), ("meminfo", quietFactory)]
    initiatedCollectors := []
    collectorState := [("cpu", true), ("meminfo", true)]
    forcedCollectors := []
    factoryCalls := [] }

/-- A run of `Collect` on `exampleScrape`: the goroutines are started one by
one while the first ones already work, `wg.Wait()` is tried twice too early,
and returns once the three goroutines are done. -/
def exampleActions : List Action :=
  [.start, .work 0, .start, .wait, .start, .work 0, .work 1, .work 2, .work 0, .finish 0,
   .wait, .work 1, .work 1, .work 2, .work 2, .finish 1, .work 2, .finish 2, .wait]

/-! ## Lemmas on Go maps -/

namespace GoMap

variable {V : Type}

theorem get?_nil (key : String) : get? ([] : GoMap V) key = none := rfl

theorem get?_cons (k : String) (v : V) (rest : GoMap V) (key : String) :
    get? ((k, v) :: rest) key = if k = key then some v else get? rest key := rfl

theorem get?_eq_none_iff (m : GoMap V) (key : String) :
    m.get? key = none ↔ key ∉ m.keys := by
  induction m with
  | nil => simp [get?, keys]
  | cons e rest ih =>
    obtain ⟨k, v⟩ := e
    by_cases h : k = key
    · simp [get?_cons, keys, h]
    · have h2 : ¬ key = k := fun hh => h hh.symm
      simp only [get?_cons, h, if_false, ih, keys, List.map_cons, List.mem_cons, h2, false_or]

theorem get?_isSome_iff (m : GoMap V) (key : String) :
    (∃ v, m.get? key = some v) ↔ key ∈ m.keys := by
  have h := get?_eq_none_iff m key
  cases hg : m.get? key with
  | none => simp [hg] at h; simp [h]
  | some v =>
    simp only [hg, reduceCtorEq, false_iff, not_not] at h
    simp [h]

theorem keys_assign (m : GoMap V) (key : String) (v : V) :
    (m.assign key v).keys = m.keys := by
  induction m with
  | nil => rfl
  | cons e rest ih =>
    simp only [assign, keys, List.map_cons, List.map_map, List.cons.injEq] at ih ⊢
    refine ⟨?_, ?_⟩
    · split <;> rfl
    · apply List.map_congr_left
      intro a _
      simp only [Function.comp]
      split <;> rfl

theorem get?_assign (m : GoMap V) (key : String) (v : V) (k : String) :
    (m.assign key v).get? k = if k = key then (m.get? k).map (fun _ => v) else m.get? k := by
  induction m with
  | nil => simp [assign, get?]
  | cons e rest ih =>
    obtain ⟨k0, v0⟩ := e
    have ih2 : get? (List.map (fun e => if e.1 = key then (e.1, v) else e) rest) k
        = if k = key then (get? rest k).map (fun _ => v) else get? rest k := ih
    by_cases h1 : k0 = key
    · subst h1
      by_cases h2 : k0 = k
      · subst h2
        simp [assign, get?_cons]
      · have h3 : ¬ k = k0 := fun hh => h2 hh.symm
        simp only [assign, List.map_cons, if_true, get?_cons, h2, if_false, h3] at ih2 ⊢
        exact ih2
    · by_cases h2 : k0 = k
      · have h3 : ¬ k = key := fun hh => h1 (h2.trans hh)
        simp [assign, get?_cons, h1, h2, h3]
      · simp only [assign, List.map_cons, h1, if_false, get?_cons, h2]
        exact ih2

theorem get?_set (m : GoMap V) (key : String) (v : V) (k : String) :
    (m.set key v).get? k = if k = key then some v else m.get? k := by
  induction m with
  | nil =>
    by_cases h : k = key
    · simp [set, get?, h]
    · have h2 : ¬ key = k := fun hh => h hh.symm
      simp [set, get?, h, h2]
  | cons e rest ih =>
    obtain ⟨k0, v0⟩ := e
    by_cases h1 : k0 = key
    · subst h1
      by_cases h2 : k = k0
      · subst h2; simp [set, get?]
      · have h3 : ¬ k0 = k := fun hh => h2 hh.symm
        simp [set, get?, h2, h3]
    · by_cases h2 : k0 = k
      · subst h2
        simp [set, get?, h1]
      · simp only [set, h1, if_false, get?_cons, h2]
        exact ih

theorem mem_keys_set (m : GoMap V) (key : String) (v : V) (k : String) :
    k ∈ (m.set key v).keys ↔ k = key ∨ k ∈ m.keys := by
  rw [← get?_isSome_iff, ← get?_isSome_iff, get?_set]
  by_cases h : k = key
  · simp [h]
  · simp [h]

theorem set_ne_nil (m : GoMap V) (key : String) (v : V) : m.set key v ≠ [] := by
  cases m with
  | nil => simp [set]
  | cons e rest =>
    obtain ⟨k0, v0⟩ := e
    simp only [set]
    split <;> simp

theorem nodup_keys_set (m : GoMap V) (key : String) (v : V) (h : m.keys.Nodup) :
    (m.set key v).keys.Nodup := by
  induction m with
  | nil => simp [set, keys]
  | cons e rest ih =>
    obtain ⟨k0, v0⟩ := e
    have hk : k0 ∉ keys rest ∧ (keys rest).Nodup := by
      simpa [keys] using h
    by_cases h1 : k0 = key
    · simpa [set, h1, keys] using h
    · simp only [set, h1, if_false]
      have h3 : k0 ∉ (set rest key v).keys := by
        rw [mem_keys_set]
        exact fun hh => hh.elim h1 hk.1
      have h4 := ih hk.2
      simp only [keys, List.map_cons, List.nodup_cons] at h3 h4 ⊢
      exact ⟨h3, h4⟩

theorem getBool_set_true (m : GoMap Bool) (key k : String) :
    (m.set key true).getBool k = true ↔ k = key ∨ m.getBool k = true := by
  simp only [getBool, get?_set]
  by_cases h : k = key
  · simp [h]
  · simp [h]

end GoMap

/-! ## Lemmas on `DisableDefaultCollectors` -/

theorem keys_disableLoop (forced : GoMap Bool) (visit : List String) (cs : GoMap Bool) :
    (disableLoop forced visit cs).keys = cs.keys := by
  induction visit generalizing cs with
  | nil => rfl
  | cons c rest ih =>
    simp only [disableLoop]
    split
    · rw [ih, GoMap.keys_assign]
    · exact ih cs

theorem get?_disableLoop (forced : GoMap Bool) (visit : List String) (cs : GoMap Bool)
    (k : String) :
    (disableLoop forced visit cs).get? k =
      if k ∈ visit ∧ forced.get? k = none then (cs.get? k).map (fun _ => false)
      else cs.get? k := by
  induction visit generalizing cs with
  | nil => simp [disableLoop]
  | cons c rest ih =>
    simp only [disableLoop]
    by_cases hf : forced.get? c = none
    · simp only [hf, Option.isNone_none, if_true]
      rw [ih, GoMap.get?_assign]
      by_cases hk : k = c
      · subst hk
        simp only [hf, and_true, if_true, List.mem_cons, true_or]
        cases cs.get? k <;> simp
      · simp [hk]
    · have hs : (forced.get? c).isNone = false := by
        cases h : forced.get? c with
        | none => exact absurd h hf
        | some b => rfl
      simp only [hs, Bool.false_eq_true, if_false]
      rw [ih]
      by_cases hk : k = c
      · subst hk
        simp [hf]
      · simp [hk]

/-! ## Lemmas on `NewNodeCollector` -/

/-- The filter loop stops at the first filter that is not both registered and
enabled: with the missing-collector error when that filter is not registered. -/
theorem filterLoop_missing (cs : GoMap Bool) (filters : List String) (f : GoMap Bool)
    (name : String)
    (hfirst : filters.find? (fun x => decide (cs.get? x ≠ some true)) = some name)
    (habsent : cs.get? name = none) :
    filterLoop cs filters f = .error (.missingCollector name) := by
  induction filters generalizing f with
  | nil => simp at hfirst
  | cons x rest ih =>
    by_cases hx : cs.get? x = some true
    · have hrest : rest.find? (fun x => decide (cs.get? x ≠ some true)) = some name := by
        simpa [List.find?, hx] using hfirst
      simp only [filterLoop, hx, Bool.not_true, Bool.false_eq_true, if_false]
      exact ih _ hrest
    · have hname : x = name := by
        simpa [List.find?, hx] using hfirst
      subst hname
      simp [filterLoop, habsent]

/-- The filter loop stops at the first filter that is not both registered and
enabled: with the disabled-collector error when that filter is registered. -/
theorem filterLoop_disabled (cs : GoMap Bool) (filters : List String) (f : GoMap Bool)
    (name : String)
    (hfirst : filters.find? (fun x => decide (cs.get? x ≠ some true)) = some name)
    (hdisabled : cs.get? name = some false) :
    filterLoop cs filters f = .error (.disabledCollector name) := by
  induction filters generalizing f with
  | nil => simp at hfirst
  | cons x rest ih =>
    by_cases hx : cs.get? x = some true
    · have hrest : rest.find? (fun x => decide (cs.get? x ≠ some true)) = some name := by
        simpa [List.find?, hx] using hfirst
      simp only [filterLoop, hx, Bool.not_true, Bool.false_eq_true, if_false]
      exact ih _ hrest
    · have hname : x = name := by
        simpa [List.find?, hx] using hfirst
      subst hname
      simp [filterLoop, hdisabled]

/-- When the filter loop succeeds every filter is registered and enabled, and
the set it built holds the names it started with and the filters. -/
theorem filterLoop_ok (cs : GoMap Bool) (filters : List String) (f0 f : GoMap Bool)
    (h : filterLoop cs filters f0 = .ok f) :
    (∀ x ∈ filters, cs.get? x = some true) ∧
    (∀ k, f.getBool k = true ↔ (f0.getBool k = true ∨ k ∈ filters)) ∧
    (f = [] ↔ (f0 = [] ∧ filters = [])) := by
  induction filters generalizing f0 with
  | nil =>
    simp only [filterLoop, Except.ok.injEq] at h
    subst h
    simp
  | cons x rest ih =>
    cases hx : cs.get? x with
    | none => simp [filterLoop, hx] at h
    | some b =>
      cases b with
      | false => simp [filterLoop, hx] at h
      | true =>
        simp only [filterLoop, hx, Bool.not_true, Bool.false_eq_true, if_false] at h
        obtain ⟨h1, h2, h3⟩ := ih _ h
        refine ⟨?_, ?_, ?_⟩
        · intro y hy
          rcases List.mem_cons.mp hy with hy | hy
          · rw [hy]; exact hx
          · exact h1 y hy
        · intro k
          rw [h2, GoMap.getBool_set_true, List.mem_cons]
          tauto
        · rw [h3]
          have := GoMap.set_ne_nil f0 x true
          simp [this]

/-- One iteration of the second loop: the five ways it can go. -/
theorem collectorLoop_cons (lg : Logger) (f cs : GoMap Bool) (key : String)
    (rest : List String) (s : State) (cols : GoMap Collector) :
    (¬ Selected cs f key ∧
      collectorLoop lg f cs (key :: rest) s cols = collectorLoop lg f cs rest s cols) ∨
    (Selected cs f key ∧ ∃ c, s.initiatedCollectors.get? key = some c ∧
      collectorLoop lg f cs (key :: rest) s cols
        = collectorLoop lg f cs rest s (cols.set key c)) ∨
    (Selected cs f key ∧ s.initiatedCollectors.get? key = none ∧
      s.factories.get? key = none ∧
      collectorLoop lg f cs (key :: rest) s cols = (.panicked, s)) ∨
    (Selected cs f key ∧ s.initiatedCollectors.get? key = none ∧
      ∃ err, FactoryFails s lg key err ∧
      collectorLoop lg f cs (key :: rest) s cols
        = (.failed (.factoryError err), { s with factoryCalls := s.factoryCalls ++ [key] })) ∨
    (Selected cs f key ∧ s.initiatedCollectors.get? key = none ∧
      ∃ factory update, s.factories.get? key = some factory ∧
      factory (lg.With "collector" key) = .ok update ∧
      collectorLoop lg f cs (key :: rest) s cols
        = collectorLoop lg f cs rest
            { s with
              factoryCalls := s.factoryCalls ++ [key]
              initiatedCollectors :=
                s.initiatedCollectors.set key
                  { obj := s.factoryCalls.length, Update := update } }
            (cols.set key { obj := s.factoryCalls.length, Update := update })) := by
  by_cases hsel : Selected cs f key
  · obtain ⟨hcs, hf⟩ := hsel
    have hcond : (!true || (decide (f.length > 0) && !f.getBool key)) = false := by
      rcases hf with hf | hf
      · simp [hf]
      · simp [hf]
    right
    cases hc : s.initiatedCollectors.get? key with
    | some c =>
      left
      refine ⟨⟨hcs, hf⟩, c, rfl, ?_⟩
      simp only [collectorLoop, hcs, hcond, hc, Bool.false_eq_true, if_false]
    | none =>
      right
      cases hfac : s.factories.get? key with
      | none =>
        left
        refine ⟨⟨hcs, hf⟩, rfl, rfl, ?_⟩
        simp only [collectorLoop, hcs, hcond, hc, hfac, Bool.false_eq_true, if_false]
      | some factory =>
        right
        cases hres : factory (lg.With "collector" key) with
        | error err =>
          left
          refine ⟨⟨hcs, hf⟩, rfl, err, ⟨factory, hfac, hres⟩, ?_⟩
          simp only [collectorLoop, hcs, hcond, hc, hfac, hres, Bool.false_eq_true, if_false]
        | ok update =>
          right
          refine ⟨⟨hcs, hf⟩, rfl, factory, update, rfl, hres, ?_⟩
          simp only [collectorLoop, hcs, hcond, hc, hfac, hres, Bool.false_eq_true, if_false]
  · left
    refine ⟨hsel, ?_⟩
    cases hcs : cs.get? key with
    | none => simp only [collectorLoop, hcs]
    | some enabled =>
      cases enabled with
      | false => simp [collectorLoop, hcs]
      | true =>
        have hf : ¬ (f = [] ∨ f.getBool key = true) := fun hh => hsel ⟨hcs, hh⟩
        have hf1 : f ≠ [] := fun hh => hf (Or.inl hh)
        have hf2 : f.getBool key = false := by
          cases hb : f.getBool key with
          | false => rfl
          | true => exact absurd (Or.inr hb) hf
        have hlen : 0 < f.length := List.length_pos.mpr hf1
        simp [collectorLoop, hcs, hf2, hlen]

/-- The second loop leaves the tables it only reads, never replaces or drops a
cached instance, and invokes factories only for names that were not cached. -/
theorem collectorLoop_state (lg : Logger) (f cs : GoMap Bool) (l : List String)
    (s : State) (cols : GoMap Collector) :
    (collectorLoop lg f cs l s cols).2.factories = s.factories ∧
    (collectorLoop lg f cs l s cols).2.collectorState = s.collectorState ∧
    (collectorLoop lg f cs l s cols).2.forcedCollectors = s.forcedCollectors ∧
    (∀ k c, s.initiatedCollectors.get? k = some c →
      (collectorLoop lg f cs l s cols).2.initiatedCollectors.get? k = some c) ∧
    ∃ invoked, (collectorLoop lg f cs l s cols).2.factoryCalls = s.factoryCalls ++ invoked ∧
      ∀ k ∈ invoked, s.initiatedCollectors.get? k = none := by
  induction l generalizing s cols with
  | nil => exact ⟨rfl, rfl, rfl, fun _ _ h => h, [], by simp [collectorLoop], by simp⟩
  | cons key rest ih =>
    rcases collectorLoop_cons lg f cs key rest s cols with
      ⟨_, h⟩ | ⟨_, c, _, h⟩ | ⟨_, _, _, h⟩ | ⟨_, _, err, _, h⟩ | ⟨_, hc, fac, u, _, _, h⟩
    · rw [h]; exact ih s cols
    · rw [h]; exact ih s _
    · rw [h]; exact ⟨rfl, rfl, rfl, fun _ _ h => h, [], by simp, by simp⟩
    · rw [h]
      refine ⟨rfl, rfl, rfl, fun _ _ h => h, [key], rfl, ?_⟩
      intro k hk
      rw [List.mem_singleton.mp hk]
      assumption
    · rw [h]
      obtain ⟨h1, h2, h3, h4, invoked, h5, h6⟩ := ih
        { s with
          factoryCalls := s.factoryCalls ++ [key]
          initiatedCollectors :=
            s.initiatedCollectors.set key { obj := s.factoryCalls.length, Update := u } }
        (cols.set key { obj := s.factoryCalls.length, Update := u })
      refine ⟨h1, h2, h3, ?_, key :: invoked, ?_, ?_⟩
      · intro k c hk
        apply h4
        show (s.initiatedCollectors.set key _).get? k = some c
        rw [GoMap.get?_set]
        have hne : ¬ k = key := by
          intro hh
          rw [hh, hc] at hk
          exact Option.noConfusion hk
        simp only [hne, if_false]
        exact hk
      · rw [h5]
        simp
      · intro k hk
        rcases List.mem_cons.mp hk with hk | hk
        · rw [hk]; exact hc
        · have h7 := h6 k hk
          have h8 : (s.initiatedCollectors.set key
              { obj := s.factoryCalls.length, Update := u }).get? k = none := h7
          rw [GoMap.get?_set] at h8
          by_cases hne : k = key
          · rw [hne]; exact hc
          · simpa [hne] using h8

/-- When the second loop returns a `NodeCollector`: its names, its logger, and
its instances are the cached ones. -/
theorem collectorLoop_returned (lg : Logger) (f cs : GoMap Bool) (l : List String)
    (s : State) (cols : GoMap Collector) (nc : NodeCollector) (s1 : State)
    (h : collectorLoop lg f cs l s cols = (.returned nc, s1)) :
    (∀ k, k ∈ nc.Collectors.keys ↔ k ∈ cols.keys ∨ (k ∈ l ∧ Selected cs f k)) ∧
    (cols.keys.Nodup → nc.Collectors.keys.Nodup) ∧
    nc.logger = lg ∧
    ((∀ k c, cols.get? k = some c → s.initiatedCollectors.get? k = some c) →
      ∀ k c, nc.Collectors.get? k = some c → s1.initiatedCollectors.get? k = some c) := by
  induction l generalizing s cols with
  | nil =>
    simp only [collectorLoop, Prod.mk.injEq, Outcome.returned.injEq] at h
    obtain ⟨h1, h2⟩ := h
    subst h1; subst h2
    exact ⟨by simp, fun hn => hn, rfl, fun hh => hh⟩
  | cons key rest ih =>
    rcases collectorLoop_cons lg f cs key rest s cols with
      ⟨hsel, e⟩ | ⟨hsel, c, hc, e⟩ | ⟨_, _, _, e⟩ | ⟨_, _, err, _, e⟩ |
      ⟨hsel, hc, fac, u, _, _, e⟩
    · rw [e] at h
      obtain ⟨h1, h2, h3, h4⟩ := ih s cols h
      refine ⟨?_, h2, h3, h4⟩
      intro k
      rw [h1, List.mem_cons]
      constructor
      · rintro (hk | ⟨hk, hs⟩)
        · exact Or.inl hk
        · exact Or.inr ⟨Or.inr hk, hs⟩
      · rintro (hk | ⟨hk | hk, hs⟩)
        · exact Or.inl hk
        · rw [hk] at hs; exact absurd hs hsel
        · exact Or.inr ⟨hk, hs⟩
    · rw [e] at h
      obtain ⟨h1, h2, h3, h4⟩ := ih s _ h
      refine ⟨?_, fun hn => h2 (GoMap.nodup_keys_set _ _ _ hn), h3, ?_⟩
      · intro k
        rw [h1, GoMap.mem_keys_set, List.mem_cons]
        constructor
        · rintro ((hk | hk) | ⟨hk, hs⟩)
          · rw [hk]; exact Or.inr ⟨Or.inl rfl, hsel⟩
          · exact Or.inl hk
          · exact Or.inr ⟨Or.inr hk, hs⟩
        · rintro (hk | ⟨hk | hk, hs⟩)
          · exact Or.inl (Or.inr hk)
          · exact Or.inl (Or.inl hk)
          · exact Or.inr ⟨hk, hs⟩
      · intro hagree
        apply h4
        intro k c1 hk
        rw [GoMap.get?_set] at hk
        by_cases hne : k = key
        · simp only [hne, if_true, Option.some.injEq] at hk
          rw [hne, ← hk]; exact hc
        · simp only [hne, if_false] at hk
          exact hagree k c1 hk
    · rw [e] at h
      simp at h
    · rw [e] at h
      simp at h
    · rw [e] at h
      obtain ⟨h1, h2, h3, h4⟩ := ih _ _ h
      refine ⟨?_, fun hn => h2 (GoMap.nodup_keys_set _ _ _ hn), h3, ?_⟩
      · intro k
        rw [h1, GoMap.mem_keys_set, List.mem_cons]
        constructor
        · rintro ((hk | hk) | ⟨hk, hs⟩)
          · rw [hk]; exact Or.inr ⟨Or.inl rfl, hsel⟩
          · exact Or.inl hk
          · exact Or.inr ⟨Or.inr hk, hs⟩
        · rintro (hk | ⟨hk | hk, hs⟩)
          · exact Or.inl (Or.inr hk)
          · exact Or.inl (Or.inl hk)
          · exact Or.inr ⟨hk, hs⟩
      · intro hagree
        apply h4
        intro k c1 hk
        show (s.initiatedCollectors.set key _).get? k = some c1
        rw [GoMap.get?_set] at hk ⊢
        by_cases hne : k = key
        · simp only [hne, if_true] at hk ⊢
          exact hk
        · simp only [hne, if_false] at hk ⊢
          exact hagree k c1 hk

/-- A failure of the second loop is the failure of a factory it invoked. -/
theorem collectorLoop_failed (lg : Logger) (f cs : GoMap Bool) (l : List String)
    (s : State) (cols : GoMap Collector) (e : ConstructionError)
    (h : (collectorLoop lg f cs l s cols).1 = .failed e) :
    ∃ k err, k ∈ l ∧ Selected cs f k ∧ s.initiatedCollectors.get? k = none ∧
      FactoryFails s lg k err ∧ e = .factoryError err := by
  induction l generalizing s cols with
  | nil => simp [collectorLoop] at h
  | cons key rest ih =>
    rcases collectorLoop_cons lg f cs key rest s cols with
      ⟨_, e1⟩ | ⟨_, c, _, e1⟩ | ⟨_, _, _, e1⟩ | ⟨hsel, hc, err, hff, e1⟩ |
      ⟨_, hc, fac, u, _, _, e1⟩
    · rw [e1] at h
      obtain ⟨k, err, hk, h1⟩ := ih s cols h
      exact ⟨k, err, List.mem_cons_of_mem _ hk, h1⟩
    · rw [e1] at h
      obtain ⟨k, err, hk, h1⟩ := ih s _ h
      exact ⟨k, err, List.mem_cons_of_mem _ hk, h1⟩
    · rw [e1] at h
      simp at h
    · rw [e1] at h
      simp only [Outcome.failed.injEq] at h
      exact ⟨key, err, List.mem_cons_self _ _, hsel, hc, hff, h.symm⟩
    · rw [e1] at h
      obtain ⟨k, err, hk, hs, hunc, hff, he⟩ := ih _ _ h
      have hunc1 : (s.initiatedCollectors.set key
          { obj := s.factoryCalls.length, Update := u }).get? k = none := hunc
      rw [GoMap.get?_set] at hunc1
      by_cases hne : k = key
      · simp [hne] at hunc1
      · simp only [hne, if_false] at hunc1
        exact ⟨k, err, List.mem_cons_of_mem _ hk, hs, hunc1, hff, he⟩

/-- With a factory for every name the loop selects, the loop does not panic,
and it fails when the factory of a selected, uncached name fails. -/
theorem collectorLoop_fails (lg : Logger) (f cs : GoMap Bool) (l : List String)
    (s : State) (cols : GoMap Collector)
    (hfac : ∀ k ∈ l, Selected cs f k → k ∈ s.factories.keys) :
    (collectorLoop lg f cs l s cols).1 ≠ .panicked ∧
    ∀ k err, k ∈ l → Selected cs f k → s.initiatedCollectors.get? k = none →
      FactoryFails s lg k err → ∃ e, (collectorLoop lg f cs l s cols).1 = .failed e := by
  induction l generalizing s cols with
  | nil => simp [collectorLoop]
  | cons key rest ih =>
    have hfac1 : ∀ k ∈ rest, Selected cs f k → k ∈ s.factories.keys :=
      fun k hk => hfac k (List.mem_cons_of_mem _ hk)
    rcases collectorLoop_cons lg f cs key rest s cols with
      ⟨hsel, e1⟩ | ⟨_, c, hc, e1⟩ | ⟨hsel, _, hnone, e1⟩ | ⟨_, _, err, _, e1⟩ |
      ⟨_, hc, fac, u, hfk, hok, e1⟩
    · rw [e1]
      refine ⟨(ih s cols hfac1).1, ?_⟩
      intro k err hk hs hunc hff
      rcases List.mem_cons.mp hk with hk | hk
      · rw [hk] at hs; exact absurd hs hsel
      · exact (ih s cols hfac1).2 k err hk hs hunc hff
    · rw [e1]
      refine ⟨(ih s _ hfac1).1, ?_⟩
      intro k err hk hs hunc hff
      rcases List.mem_cons.mp hk with hk | hk
      · rw [hk, hc] at hunc; exact Option.noConfusion hunc
      · exact (ih s _ hfac1).2 k err hk hs hunc hff
    · have hmem := hfac key (List.mem_cons_self _ _) hsel
      rw [← GoMap.get?_isSome_iff] at hmem
      obtain ⟨v, hv⟩ := hmem
      rw [hv] at hnone
      exact Option.noConfusion hnone
    · rw [e1]
      exact ⟨by simp, fun _ _ _ _ _ _ => ⟨_, rfl⟩⟩
    · rw [e1]
      have ih1 := ih
        { s with
          factoryCalls := s.factoryCalls ++ [key]
          initiatedCollectors :=
            s.initiatedCollectors.set key { obj := s.factoryCalls.length, Update := u } }
        (cols.set key { obj := s.factoryCalls.length, Update := u }) hfac1
      refine ⟨ih1.1, ?_⟩
      intro k err hk hs hunc hff
      have hne : ¬ k = key := by
        intro hh
        obtain ⟨fac1, hf1, hf2⟩ := hff
        rw [hh, hfk] at hf1
        simp only [Option.some.injEq] at hf1
        rw [hh, ← hf1, hok] at hf2
        exact Except.noConfusion hf2
      rcases List.mem_cons.mp hk with hk | hk
      · exact absurd hk hne
      · apply ih1.2 k err hk hs _ hff
        show (s.initiatedCollectors.set key _).get? k = none
        rw [GoMap.get?_set]
        simp only [hne, if_false]
        exact hunc

/-- Filters that are all registered and enabled pass the filter loop. -/
theorem filterLoop_valid (cs : GoMap Bool) (filters : List String) (f0 : GoMap Bool)
    (hvalid : ∀ x ∈ filters, cs.get? x = some true) :
    ∃ f, filterLoop cs filters f0 = .ok f := by
  induction filters generalizing f0 with
  | nil => exact ⟨f0, rfl⟩
  | cons x rest ih =>
    have hx := hvalid x (List.mem_cons_self _ _)
    simp only [filterLoop, hx, Bool.not_true, Bool.false_eq_true, if_false]
    exact ih _ (fun y hy => hvalid y (List.mem_cons_of_mem _ hy))

/-- The names the second loop selects, for the set the filter loop built, are
the effective set. -/
theorem selected_iff_effective (cs : GoMap Bool) (filters : List String) (f : GoMap Bool)
    (h : filterLoop cs filters [] = .ok f) (k : String) :
    Selected cs f k ↔ Effective cs filters k := by
  obtain ⟨_, h2, h3⟩ := filterLoop_ok cs filters [] f h
  have h4 : f.getBool k = true ↔ k ∈ filters := by
    rw [h2]
    simp [GoMap.getBool, GoMap.get?]
  have h5 : f = [] ↔ filters = [] := by
    rw [h3]
    simp
  unfold Selected Effective
  rw [h4, h5]

/-! ## Lemmas on `execute` and `Collect` -/

theorem sent_append (a b : List Event) : sent (a ++ b) = sent a ++ sent b := by
  induction a with
  | nil => rfl
  | cons e rest ih =>
    cases e with
    | send m => simp [sent, ih]
    | log lg r => simp [sent, ih]

theorem logged_append (a b : List Event) : logged (a ++ b) = logged a ++ logged b := by
  induction a with
  | nil => rfl
  | cons e rest ih =>
    cases e with
    | send m => simp [logged, ih]
    | log lg r => simp [logged, ih]

theorem sent_map_send (l : List Metric) : sent (l.map Event.send) = l := by
  induction l with
  | nil => rfl
  | cons m rest ih => simp [sent, ih]

theorem logged_map_send (l : List Metric) : logged (l.map Event.send) = [] := by
  induction l with
  | nil => rfl
  | cons m rest ih => simp [logged, ih]

/-- When the descriptor carries no error, the label values are as many as its
variable labels and the value type is known, `MustNewConstMetric` builds the
metric. -/
theorem MustNewConstMetric_some (desc : Desc) (valueType : ValueType) (value : Float64)
    (labelValues : List String) (hdesc : desc.hasError = false)
    (hlabels : labelValues.length = desc.variableLabels.length)
    (htype : valueType ≠ .unknown) :
    MustNewConstMetric desc valueType value labelValues
      = some { desc := desc, valueType := valueType, value := value,
               labelValues := labelValues } := by
  unfold MustNewConstMetric
  rw [if_neg (by simp [hdesc]), if_neg (by simp [hlabels])]
  cases valueType with
  | unknown => exact absurd rfl htype
  | CounterValue => rfl
  | GaugeValue => rfl
  | UntypedValue => rfl

/-- Otherwise `MustNewConstMetric` panics. -/
theorem MustNewConstMetric_none (desc : Desc) (valueType : ValueType) (value : Float64)
    (labelValues : List String)
    (h : desc.hasError = true ∨ labelValues.length ≠ desc.variableLabels.length ∨
      valueType = .unknown) :
    MustNewConstMetric desc valueType value labelValues = none := by
  unfold MustNewConstMetric
  by_cases hd : desc.hasError = true
  · rw [if_pos hd]
  · rw [if_neg hd]
    by_cases hl : labelValues.length ≠ desc.variableLabels.length
    · rw [if_pos hl]
    · rw [if_neg hl]
      rcases h with h | h | h
      · exact absurd h hd
      · exact absurd h hl
      · rw [h]

/-- The two descriptors of the package carry no error, under the legacy and
under the UTF-8 validation of names. -/
theorem scrapeDesc_valid (scheme : ValidationScheme) :
    (NewDesc scheme (BuildFQName nodeNamespace "scrape" "collector_duration_seconds")
      "node_exporter: Duration of a collector scrape." ["collector"] []).hasError = false ∧
    (NewDesc scheme (BuildFQName nodeNamespace "scrape" "collector_success")
      "node_exporter: Whether a collector succeeded." ["collector"] []).hasError = false := by
  cases scheme <;> decide

theorem scrapeDurationDesc_valid : scrapeDurationDesc.hasError = false :=
  (scrapeDesc_valid packageScheme).1

theorem scrapeSuccessDesc_valid : scrapeSuccessDesc.hasError = false :=
  (scrapeDesc_valid packageScheme).2

/-- The events of `execute`: the sends of `Update`, one log record, the
duration sample, the success sample.  It does not panic. -/
theorem execute_eq (name : String) (c : Collector) (logger : Logger) (seconds : Float64) :
    execute name c logger seconds =
      some (c.Update.1.map Event.send ++
        [.log logger (scrapeRecord name seconds c.Update.2),
         .send (durationSample name seconds),
         .send (successSample name c.Update.2)]) := by
  have hd := MustNewConstMetric_some scrapeDurationDesc .GaugeValue seconds [name]
    scrapeDurationDesc_valid rfl (by decide)
  have hs := fun v => MustNewConstMetric_some scrapeSuccessDesc .GaugeValue v [name]
    scrapeSuccessDesc_valid rfl (by decide)
  cases herr : c.Update.2 with
  | none =>
    simp [execute, herr, hd, hs, scrapeRecord, durationSample, successSample]
  | some e =>
    by_cases he : e = ErrNoData
    · simp [execute, herr, hd, hs, scrapeRecord, durationSample, successSample,
        IsNoDataError, he]
    · simp [execute, herr, hd, hs, scrapeRecord, durationSample, successSample,
        IsNoDataError, he]

theorem sent_execute (name : String) (c : Collector) (logger : Logger) (seconds : Float64)
    (events : List Event) (h : execute name c logger seconds = some events) :
    sent events
      = c.Update.1 ++ [durationSample name seconds, successSample name c.Update.2] := by
  rw [execute_eq] at h
  simp only [Option.some.injEq] at h
  rw [← h, sent_append, sent_map_send]
  rfl

theorem stepTask_perm (tasks : List (List Event)) (i : Nat) (e : Event)
    (tasks1 : List (List Event)) (h : stepTask tasks i = some (e, tasks1)) :
    tasks.flatten.Perm (e :: tasks1.flatten) ∧ tasks1.length = tasks.length := by
  induction tasks generalizing i tasks1 with
  | nil => simp [stepTask] at h
  | cons t ts ih =>
    cases i with
    | zero =>
      cases t with
      | nil => simp [stepTask] at h
      | cons e1 t1 =>
        simp only [stepTask, Option.some.injEq, Prod.mk.injEq] at h
        obtain ⟨h1, h2⟩ := h
        subst h1; subst h2
        simp
    | succ j =>
      cases hs : stepTask ts j with
      | none =>
        cases t <;> simp [stepTask, hs] at h
      | some r =>
        obtain ⟨e1, ts1⟩ := r
        have h2 : e1 = e ∧ t :: ts1 = tasks1 := by
          cases t <;> simpa [stepTask, hs] using h
        obtain ⟨h3, h4⟩ := h2
        subst h3; subst h4
        obtain ⟨ih1, ih2⟩ := ih j ts1 hs
        refine ⟨?_, by simp [ih2]⟩
        simp only [List.flatten_cons]
        exact (List.Perm.append_left t ih1).trans List.perm_middle

/-- Whatever the interleaving, the goroutines together cause exactly the events
of each of them. -/
theorem runTasks_perm (sched : List Nat) (tasks : List (List Event)) :
    (runTasks sched tasks).Perm tasks.flatten := by
  induction sched generalizing tasks with
  | nil => exact List.Perm.refl _
  | cons i rest ih =>
    cases hs : stepTask tasks i with
    | none =>
      simp only [runTasks, hs]
      exact ih tasks
    | some r =>
      obtain ⟨e, tasks1⟩ := r
      simp only [runTasks, hs]
      exact ((ih tasks1).cons e).trans (stepTask_perm tasks i e tasks1 hs).1.symm

theorem sent_perm (a b : List Event) (h : a.Perm b) : (sent a).Perm (sent b) := by
  induction h with
  | nil => exact List.Perm.refl _
  | cons e _ ih =>
    cases e with
    | send m => exact ih.cons m
    | log lg r => exact ih
  | swap e1 e2 l =>
    cases e1 <;> cases e2 <;> simp [sent, List.Perm.swap]
  | trans _ _ ih1 ih2 => exact ih1.trans ih2

/-- The events of the goroutine `Collect` starts for the entry `name, c`. -/
theorem goroutines_eq (n : NodeCollector) (seconds : String → Float64) (visit : List String) :
    goroutines n seconds visit =
      some (visit.filterMap (fun name =>
        (n.Collectors.get? name).map (fun c =>
          c.Update.1.map Event.send ++
            [.log n.logger (scrapeRecord name (seconds name) c.Update.2),
             .send (durationSample name (seconds name)),
             .send (successSample name c.Update.2)]))) := by
  induction visit with
  | nil => rfl
  | cons name rest ih =>
    cases hc : n.Collectors.get? name with
    | none => simp [goroutines, hc, ih]
    | some c => simp [goroutines, hc, ih, execute_eq]

/-- Reading every key of a map with distinct keys gives back its entries. -/
theorem GoMap.filterMap_keys {V W : Type} (m : GoMap V) (g : String → V → W)
    (h : m.keys.Nodup) :
    m.keys.filterMap (fun k => (m.get? k).map (g k)) = m.map (fun e => g e.1 e.2) := by
  induction m with
  | nil => rfl
  | cons e rest ih =>
    obtain ⟨k0, v0⟩ := e
    have hk : k0 ∉ GoMap.keys rest ∧ (GoMap.keys rest).Nodup := by
      simpa [GoMap.keys] using h
    have hrest : (GoMap.keys rest).filterMap
        (fun k => (GoMap.get? ((k0, v0) :: rest) k).map (g k))
        = (GoMap.keys rest).filterMap (fun k => (GoMap.get? rest k).map (g k)) := by
      apply List.filterMap_congr
      intro k hkm
      have hne : ¬ k0 = k := fun hh => hk.1 (hh ▸ hkm)
      simp [GoMap.get?_cons, hne]
    have hhead : GoMap.get? ((k0, v0) :: rest) k0 = some v0 := by
      simp [GoMap.get?_cons]
    have hgoal : (GoMap.keys ((k0, v0) :: rest)).filterMap
        (fun k => (GoMap.get? ((k0, v0) :: rest) k).map (g k))
        = g k0 v0 :: (GoMap.keys rest).filterMap
            (fun k => (GoMap.get? ((k0, v0) :: rest) k).map (g k)) := by
      simp only [GoMap.keys, List.map_cons, List.filterMap_cons, hhead, Option.map_some']
    rw [hgoal, hrest, ih hk.2]
    rfl

theorem sent_flatten_map {α : Type} (l : List α) (g : α → List Event) :
    sent (l.map g).flatten = l.flatMap (fun a => sent (g a)) := by
  induction l with
  | nil => rfl
  | cons a rest ih => simp [sent_append, ih, List.flatMap_cons]

theorem telemetry_length (n : NodeCollector) (seconds : String → Float64) :
    (telemetry n seconds).length = 2 * n.Collectors.length := by
  unfold telemetry
  induction n.Collectors with
  | nil => rfl
  | cons e rest ih =>
    simp only [List.flatMap_cons, List.length_append, List.length_cons, List.length_nil, ih]
    omega

theorem telemetry_count_duration (cols : GoMap Collector) (seconds : String → Float64)
    (name : String) :
    ((cols.flatMap (fun e =>
        [durationSample e.1 (seconds e.1), successSample e.1 e.2.Update.2])).filter
      (fun m => decide (m.desc = scrapeDurationDesc ∧ m.labelValues = [name]))).length
      = cols.keys.count name := by
  induction cols with
  | nil => rfl
  | cons e rest ih =>
    obtain ⟨k, c⟩ := e
    have hd : scrapeSuccessDesc ≠ scrapeDurationDesc := by decide
    simp only [List.flatMap_cons, List.filter_append, List.length_append, ih, GoMap.keys,
      List.map_cons, List.count_cons]
    by_cases hk : k = name
    · simp [List.filter, durationSample, successSample, hd, hk]
      omega
    · simp [List.filter, durationSample, successSample, hd, hk]

theorem telemetry_count_success (cols : GoMap Collector) (seconds : String → Float64)
    (name : String) :
    ((cols.flatMap (fun e =>
        [durationSample e.1 (seconds e.1), successSample e.1 e.2.Update.2])).filter
      (fun m => decide (m.desc = scrapeSuccessDesc ∧ m.labelValues = [name]))).length
      = cols.keys.count name := by
  induction cols with
  | nil => rfl
  | cons e rest ih =>
    obtain ⟨k, c⟩ := e
    have hd : scrapeDurationDesc ≠ scrapeSuccessDesc := by decide
    simp only [List.flatMap_cons, List.filter_append, List.length_append, ih, GoMap.keys,
      List.map_cons, List.count_cons]
    by_cases hk : k = name
    · simp [List.filter, durationSample, successSample, hd, hk]
      omega
    · simp [List.filter, durationSample, successSample, hd, hk]

/-! ## Lemmas on the operations -/

/-- The factories the second loop invokes are invoked once each, and every
entry the cache holds afterwards is one it held before or belongs to a name
whose factory the loop invoked. -/
theorem collectorLoop_invoked (lg : Logger) (f cs : GoMap Bool) (l : List String)
    (s : State) (cols : GoMap Collector) (invoked : List String)
    (h : (collectorLoop lg f cs l s cols).2.factoryCalls = s.factoryCalls ++ invoked) :
    invoked.Nodup ∧
    ∀ k c, (collectorLoop lg f cs l s cols).2.initiatedCollectors.get? k = some c →
      s.initiatedCollectors.get? k = some c ∨ k ∈ invoked := by
  induction l generalizing s cols invoked with
  | nil =>
    simp only [collectorLoop, List.self_eq_append_right] at h
    subst h
    exact ⟨List.nodup_nil, fun _ _ hk => Or.inl hk⟩
  | cons key rest ih =>
    rcases collectorLoop_cons lg f cs key rest s cols with
      ⟨_, e⟩ | ⟨_, c, _, e⟩ | ⟨_, _, _, e⟩ | ⟨_, _, err, _, e⟩ | ⟨_, hc, fac, u, _, _, e⟩
    · rw [e] at h ⊢
      exact ih s cols invoked h
    · rw [e] at h ⊢
      exact ih s _ invoked h
    · rw [e] at h ⊢
      simp only [List.self_eq_append_right] at h
      subst h
      exact ⟨List.nodup_nil, fun _ _ hk => Or.inl hk⟩
    · rw [e] at h ⊢
      simp only [List.append_cancel_left_eq] at h
      subst h
      exact ⟨List.nodup_singleton key, fun _ _ hk => Or.inl hk⟩
    · rw [e] at h ⊢
      obtain ⟨_, _, _, _, inv1, hcalls, hunc⟩ := collectorLoop_state lg f cs rest
        { s with
          factoryCalls := s.factoryCalls ++ [key]
          initiatedCollectors :=
            s.initiatedCollectors.set key { obj := s.factoryCalls.length, Update := u } }
        (cols.set key { obj := s.factoryCalls.length, Update := u })
      have hinv : invoked = key :: inv1 := by
        rw [hcalls] at h
        simp only [List.append_assoc, List.append_cancel_left_eq, List.singleton_append] at h
        exact h.symm
      obtain ⟨ih1, ih2⟩ := ih _ _ inv1 hcalls
      subst hinv
      refine ⟨List.nodup_cons.mpr ⟨?_, ih1⟩, ?_⟩
      · intro hmem
        have h1 := hunc key hmem
        have h2 : (s.initiatedCollectors.set key
            { obj := s.factoryCalls.length, Update := u }).get? key = none := h1
        rw [GoMap.get?_set] at h2
        simp at h2
      · intro k c1 hk
        rcases ih2 k c1 hk with h3 | h3
        · have h4 : (s.initiatedCollectors.set key
              { obj := s.factoryCalls.length, Update := u }).get? k = some c1 := h3
          rw [GoMap.get?_set] at h4
          by_cases hne : k = key
          · exact Or.inr (hne ▸ List.mem_cons_self _ _)
          · simp only [hne, if_false] at h4
            exact Or.inl h4
        · exact Or.inr (List.mem_cons_of_mem _ h3)

/-- What `NewNodeCollector` does to the package state, whatever its outcome:
it leaves the tables it only reads, keeps every cached instance, and invokes
factories of uncached names only, each once. -/
theorem NewNodeCollector_state (s : State) (logger : Logger) (visit filters : List String) :
    (NewNodeCollector s logger visit filters).2.factories = s.factories ∧
    (NewNodeCollector s logger visit filters).2.collectorState = s.collectorState ∧
    (NewNodeCollector s logger visit filters).2.forcedCollectors = s.forcedCollectors ∧
    (∀ k c, s.initiatedCollectors.get? k = some c →
      (NewNodeCollector s logger visit filters).2.initiatedCollectors.get? k = some c) ∧
    ∃ invoked,
      (NewNodeCollector s logger visit filters).2.factoryCalls = s.factoryCalls ++ invoked ∧
      invoked.Nodup ∧
      (∀ k ∈ invoked, s.initiatedCollectors.get? k = none) ∧
      ∀ k c, (NewNodeCollector s logger visit filters).2.initiatedCollectors.get? k = some c →
        s.initiatedCollectors.get? k = some c ∨ k ∈ invoked := by
  unfold NewNodeCollector
  cases hf : filterLoop s.collectorState filters [] with
  | error err =>
    exact ⟨rfl, rfl, rfl, fun _ _ h => h, [], by simp, List.nodup_nil, by simp,
      fun _ _ h => Or.inl h⟩
  | ok f =>
    obtain ⟨h1, h2, h3, h4, invoked, h5, h6⟩ :=
      collectorLoop_state logger f s.collectorState visit s []
    obtain ⟨h7, h8⟩ := collectorLoop_invoked logger f s.collectorState visit s [] invoked h5
    exact ⟨h1, h2, h3, h4, invoked, h5, h7, h6, h8⟩

/-- With a factory for every registered name `NewNodeCollector` does not panic. -/
theorem NewNodeCollector_no_panic (s : State) (logger : Logger) (visit filters : List String)
    (hfac : ∀ k ∈ s.collectorState.keys, k ∈ s.factories.keys) :
    (NewNodeCollector s logger visit filters).1 ≠ .panicked := by
  unfold NewNodeCollector
  cases hf : filterLoop s.collectorState filters [] with
  | error err => simp
  | ok f =>
    refine (collectorLoop_fails logger f s.collectorState visit s [] ?_).1
    intro k _ hsel
    exact hfac k ((GoMap.get?_isSome_iff _ _).mp ⟨true, hsel.1⟩)

/-- No operation removes a factory, and each keeps a factory for every
registered name. -/
theorem Op.run_factories (s : State) (op : Op) :
    (∀ k, k ∈ s.factories.keys → k ∈ (op.run s).factories.keys) ∧
    ((∀ k ∈ s.collectorState.keys, k ∈ s.factories.keys) →
      ∀ k ∈ (op.run s).collectorState.keys, k ∈ (op.run s).factories.keys) := by
  cases op with
  | register collector isDefaultEnabled factory =>
    refine ⟨?_, ?_⟩
    · intro k hk
      show k ∈ (s.factories.set collector factory).keys
      rw [GoMap.mem_keys_set]
      exact Or.inr hk
    · intro hinv k hk
      have hk1 : k ∈ (s.collectorState.set collector (flagCell isDefaultEnabled)).keys := hk
      show k ∈ (s.factories.set collector factory).keys
      rw [GoMap.mem_keys_set] at hk1 ⊢
      exact hk1.imp id (hinv k)
  | force collector => exact ⟨fun _ h => h, fun h => h⟩
  | disable visit =>
    refine ⟨fun _ h => h, ?_⟩
    intro hinv k hk
    have hk1 : k ∈ (disableLoop s.forcedCollectors visit s.collectorState).keys := hk
    rw [keys_disableLoop] at hk1
    exact hinv k hk1
  | construct logger visit filters =>
    obtain ⟨h1, h2, _⟩ := NewNodeCollector_state s logger visit filters
    refine ⟨?_, ?_⟩
    · intro k hk
      show k ∈ (NewNodeCollector s logger visit filters).2.factories.keys
      rw [h1]
      exact hk
    · intro hinv k hk
      have hk1 : k ∈ (NewNodeCollector s logger visit filters).2.collectorState.keys := hk
      show k ∈ (NewNodeCollector s logger visit filters).2.factories.keys
      rw [h1]
      rw [h2] at hk1
      exact hinv k hk1

theorem runOps_factories (s : State) (ops : List Op)
    (hinv : ∀ k ∈ s.collectorState.keys, k ∈ s.factories.keys) :
    ∀ k ∈ (runOps s ops).collectorState.keys, k ∈ (runOps s ops).factories.keys := by
  induction ops generalizing s with
  | nil => exact hinv
  | cons op rest ih => exact ih (op.run s) ((Op.run_factories s op).2 hinv)

/-- No operation replaces or drops a cached instance. -/
theorem Op.run_cache (s : State) (op : Op) (k : String) (c : Collector)
    (h : s.initiatedCollectors.get? k = some c) :
    (op.run s).initiatedCollectors.get? k = some c := by
  cases op with
  | register collector isDefaultEnabled factory => exact h
  | force collector => exact h
  | disable visit => exact h
  | construct logger visit filters =>
    exact (NewNodeCollector_state s logger visit filters).2.2.2.1 k c h

theorem runOps_cache (s : State) (ops : List Op) (k : String) (c : Collector)
    (h : s.initiatedCollectors.get? k = some c) :
    (runOps s ops).initiatedCollectors.get? k = some c := by
  induction ops generalizing s with
  | nil => exact h
  | cons op rest ih => exact ih (op.run s) (Op.run_cache s op k c h)

/-! ## Lemmas on the steps of `Collect` -/

theorem workAt_eq (gs : List Goroutine) (i : Nat) (e : Event) (gs1 : List Goroutine)
    (h : workAt gs i = some (e, gs1)) :
    ∃ pre g post rest, gs = pre ++ g :: post ∧ g.pending = e :: rest ∧
      gs1 = pre ++ { written := g.written ++ [e], pending := rest, finished := g.finished }
        :: post := by
  induction gs generalizing i gs1 with
  | nil => simp [workAt] at h
  | cons g gs ih =>
    cases i with
    | zero =>
      cases hp : g.pending with
      | nil => simp [workAt, hp] at h
      | cons e1 rest =>
        simp only [workAt, hp, Option.some.injEq, Prod.mk.injEq] at h
        obtain ⟨h1, h2⟩ := h
        subst h1
        exact ⟨[], g, gs, rest, rfl, hp, h2.symm⟩
    | succ j =>
      cases hw : workAt gs j with
      | none => simp [workAt, hw] at h
      | some r =>
        obtain ⟨e1, gs2⟩ := r
        simp only [workAt, hw, Option.some.injEq, Prod.mk.injEq] at h
        obtain ⟨h1, h2⟩ := h
        subst h1
        obtain ⟨pre, g1, post, rest, h3, h4, h5⟩ := ih j gs2 hw
        refine ⟨g :: pre, g1, post, rest, ?_, h4, ?_⟩
        · rw [h3]; rfl
        · rw [← h2, h5]; rfl

theorem finishAt_eq (gs : List Goroutine) (i : Nat) (gs1 : List Goroutine)
    (h : finishAt gs i = some gs1) :
    ∃ pre g post, gs = pre ++ g :: post ∧ g.pending = [] ∧ g.finished = false ∧
      gs1 = pre ++ { written := g.written, pending := g.pending, finished := true } :: post := by
  induction gs generalizing i gs1 with
  | nil => simp [finishAt] at h
  | cons g gs ih =>
    cases i with
    | zero =>
      by_cases hg : g.pending = [] ∧ g.finished = false
      · simp only [finishAt, hg, and_self, if_true, Option.some.injEq] at h
        exact ⟨[], g, gs, rfl, hg.1, hg.2, by rw [← h, hg.1]; rfl⟩
      · simp [finishAt, hg] at h
    | succ j =>
      cases hw : finishAt gs j with
      | none => simp [finishAt, hw] at h
      | some gs2 =>
        simp only [finishAt, hw, Option.some.injEq] at h
        obtain ⟨pre, g1, post, h3, h4, h5, h6⟩ := ih j gs2 hw
        refine ⟨g :: pre, g1, post, ?_, h4, h5, ?_⟩
        · rw [h3]; rfl
        · rw [← h, h6]; rfl

/-- The invariant holds when `Collect` has set the counter and not yet started
a goroutine. -/
theorem collectInv_start (tasks : List (List Event)) : CollectInv tasks (collectStart tasks) where
  counter := by simp [collectStart, active]
  finished := by simp [collectStart]
  written := by simp [collectStart]
  script := by simp [collectStart]
  returned := by simp [collectStart]
  noPanic := rfl
  interleaved := by simp [collectStart]

/-- Every step of `Collect` keeps the invariant. -/
theorem collectInv_step (tasks : List (List Event)) (st st1 : CollectState) (a : Action)
    (hinv : CollectInv tasks st) (hstep : st.step a = some st1) : CollectInv tasks st1 := by
  obtain ⟨hcount, hfin, hwr, hscript, hret, hpanic, hperm⟩ := hinv
  cases a with
  | start =>
    cases hu : st.unstarted with
    | nil => simp [CollectState.step, hu] at hstep
    | cons task rest =>
      simp only [CollectState.step, hu, Option.some.injEq] at hstep
      subst hstep
      refine ⟨?_, ?_, ?_, ?_, ?_, hpanic, by simpa using hperm⟩
      · simp only [hcount, hu, active, List.length_cons, List.countP_append, List.countP_cons,
          List.countP_nil, Bool.not_false, if_true]
        omega
      · intro g hg hgf
        rcases List.mem_append.mp hg with hg | hg
        · exact hfin g hg hgf
        · simp only [List.mem_singleton] at hg
          subst hg
          simp at hgf
      · intro g hg
        rcases List.mem_append.mp hg with hg | hg
        · exact hwr g hg
        · simp only [List.mem_singleton] at hg
          subst hg
          exact List.nil_sublist _
      · rw [← hscript, hu]
        simp
      · intro hr
        have := (hret hr).1
        rw [hu] at this
        exact List.noConfusion this
  | work i =>
    cases hw : workAt st.running i with
    | none => simp [CollectState.step, hw] at hstep
    | some r =>
      obtain ⟨e, running⟩ := r
      simp only [CollectState.step, hw, Option.some.injEq] at hstep
      subst hstep
      obtain ⟨pre, g, post, rest, h1, h2, h3⟩ := workAt_eq _ _ _ _ hw
      subst h3
      rw [h1] at hcount hfin hwr hscript hperm
      refine ⟨?_, ?_, ?_, ?_, hret, hpanic, ?_⟩
      rotate_right
      · refine (hperm.append_right [e]).trans ?_
        simp only [List.map_append, List.map_cons, List.flatten_append, List.flatten_cons,
          List.append_assoc]
        refine List.Perm.append_left _ (List.Perm.append_left _ ?_)
        exact List.perm_append_comm
      · simpa [active, List.countP_append, List.countP_cons] using hcount
      · intro g1 hg1 hg1f
        rcases List.mem_append.mp hg1 with hg | hg
        · exact hfin g1 (List.mem_append_left _ hg) hg1f
        · rcases List.mem_cons.mp hg with hg | hg
          · subst hg
            have h4 := hfin g (List.mem_append_right _ (List.mem_cons_self _ _)) hg1f
            rw [h2] at h4
            exact List.noConfusion h4
          · exact hfin g1 (List.mem_append_right _ (List.mem_cons_of_mem _ hg)) hg1f
      · intro g1 hg1
        rcases List.mem_append.mp hg1 with hg | hg
        · exact (hwr g1 (List.mem_append_left _ hg)).trans (List.sublist_append_left _ _)
        · rcases List.mem_cons.mp hg with hg | hg
          · subst hg
            exact (hwr g (List.mem_append_right _ (List.mem_cons_self _ _))).append
              (List.Sublist.refl _)
          · exact (hwr g1 (List.mem_append_right _ (List.mem_cons_of_mem _ hg))).trans
              (List.sublist_append_left _ _)
      · rw [← hscript]
        simp [h2]
  | finish i =>
    cases hw : finishAt st.running i with
    | none => simp [CollectState.step, hw] at hstep
    | some running =>
      obtain ⟨pre, g, post, h1, h2, h3, h4⟩ := finishAt_eq _ _ _ hw
      subst h4
      rw [h1] at hcount hfin hwr hscript hperm
      have hpos : st.wg ≠ 0 := by
        simp only [active, List.countP_append, List.countP_cons, h3, Bool.not_false,
          if_true] at hcount
        omega
      simp only [CollectState.step, hw, hpos, if_false, Option.some.injEq] at hstep
      subst hstep
      refine ⟨?_, ?_, ?_, ?_, ?_, hpanic, by simpa using hperm⟩
      · simp only [active, List.countP_append, List.countP_cons, h3, Bool.not_false,
          if_true, Bool.not_true, Bool.false_eq_true, if_false] at hcount ⊢
        omega
      · intro g1 hg1 hg1f
        rcases List.mem_append.mp hg1 with hg | hg
        · exact hfin g1 (List.mem_append_left _ hg) hg1f
        · rcases List.mem_cons.mp hg with hg | hg
          · subst hg
            exact h2
          · exact hfin g1 (List.mem_append_right _ (List.mem_cons_of_mem _ hg)) hg1f
      · intro g1 hg1
        rcases List.mem_append.mp hg1 with hg | hg
        · exact hwr g1 (List.mem_append_left _ hg)
        · rcases List.mem_cons.mp hg with hg | hg
          · subst hg
            exact hwr g (List.mem_append_right _ (List.mem_cons_self _ _))
          · exact hwr g1 (List.mem_append_right _ (List.mem_cons_of_mem _ hg))
      · rw [← hscript]
        simp
      · intro hr
        exact absurd (hret hr).2 hpos
  | wait =>
    by_cases hw : st.unstarted = [] ∧ st.wg = 0 ∧ st.returned = false
    · have hs : st.step .wait = some { st with returned := true } := by
        simp only [CollectState.step]
        rw [if_pos hw]
      rw [hs] at hstep
      simp only [Option.some.injEq] at hstep
      subst hstep
      exact ⟨hcount, hfin, hwr, hscript, fun _ => ⟨hw.1, hw.2.1⟩, hpanic, hperm⟩
    · simp [CollectState.step, hw] at hstep

theorem collectInv_run (tasks : List (List Event)) (st : CollectState) (actions : List Action)
    (hinv : CollectInv tasks st) : CollectInv tasks (runActions st actions) := by
  induction actions generalizing st with
  | nil => exact hinv
  | cons a rest ih =>
    cases hs : st.step a with
    | none =>
      simp only [runActions, hs]
      exact ih st hinv
    | some st1 =>
      simp only [runActions, hs]
      exact ih st1 (collectInv_step tasks st st1 a hinv hs)

/-- When `Collect` has returned, every goroutine is done and has caused all the
events of its `execute`. -/
theorem collectInv_returned (tasks : List (List Event)) (st : CollectState)
    (hinv : CollectInv tasks st) (hret : st.returned = true) :
    st.unstarted = [] ∧
    (∀ g ∈ st.running, g.finished = true ∧ g.pending = []) ∧
    st.running.map (fun g => g.written) = tasks ∧
    (∀ task ∈ tasks, task.Sublist st.events) ∧
    st.events.Perm tasks.flatten := by
  obtain ⟨hcount, hfin, hwr, hscript, hreturned, _, hperm⟩ := hinv
  obtain ⟨hu, hwg⟩ := hreturned hret
  have hactive : active st.running = 0 := by
    rw [hwg, hu] at hcount
    simp at hcount
    omega
  have hall : ∀ g ∈ st.running, g.finished = true ∧ g.pending = [] := by
    intro g hg
    have h1 : g.finished = true := by
      simp only [active, List.countP_eq_zero, Bool.not_eq_true', Bool.not_eq_false] at hactive
      exact hactive g hg
    exact ⟨h1, hfin g hg h1⟩
  have hmap : st.running.map (fun g => g.written) = tasks := by
    rw [← hscript, hu, List.append_nil]
    apply List.map_congr_left
    intro g hg
    rw [(hall g hg).2, List.append_nil]
  refine ⟨hu, hall, hmap, ?_, by rw [← hmap]; exact hperm⟩
  intro task htask
  rw [← hmap] at htask
  obtain ⟨g, hg, hgt⟩ := List.mem_map.mp htask
  rw [← hgt]
  exact hwr g hg

/-! ## Every schedule of `Collect` is a run of its steps -/

theorem runActions_append (st : CollectState) (a b : List Action) :
    runActions st (a ++ b) = runActions (runActions st a) b := by
  induction a generalizing st with
  | nil => rfl
  | cons x rest ih =>
    cases hs : st.step x with
    | none => simp only [List.cons_append, runActions, hs]; exact ih st
    | some st1 => simp only [List.cons_append, runActions, hs]; exact ih st1

/-- The loop of `Collect` can start all goroutines before any of them works. -/
theorem runActions_start (u : List (List Event)) (r : List Goroutine) (wg : Nat)
    (ev : List Event) :
    runActions { unstarted := u, running := r, wg := wg, events := ev, returned := false,
                 panicked := false } (u.map (fun _ => Action.start))
      = { unstarted := [], running := r ++ u.map (fun t => { written := [], pending := t,
                                                             finished := false }),
          wg := wg, events := ev, returned := false, panicked := false } := by
  induction u generalizing r with
  | nil => simp [runActions]
  | cons t rest ih =>
    simp only [List.map_cons, runActions, CollectState.step]
    rw [ih]
    simp

/-- A step of goroutine `i` in the run is the step of task `i` in the schedule. -/
theorem workAt_stepTask (r : List Goroutine) (i : Nat) :
    (workAt r i = none ∧ stepTask (r.map (fun g => g.pending)) i = none) ∨
    ∃ e r1, workAt r i = some (e, r1) ∧
      stepTask (r.map (fun g => g.pending)) i = some (e, r1.map (fun g => g.pending)) ∧
      r1.map (fun g => g.finished) = r.map (fun g => g.finished) := by
  induction r generalizing i with
  | nil => left; simp [workAt, stepTask]
  | cons g gs ih =>
    cases i with
    | zero =>
      cases hp : g.pending with
      | nil => left; simp [workAt, stepTask, hp]
      | cons e rest =>
        right
        exact ⟨e,
          { written := g.written ++ [e], pending := rest, finished := g.finished } :: gs,
          by simp only [workAt, hp], by simp [stepTask, hp], by simp⟩
    | succ j =>
      rcases ih j with ⟨h1, h2⟩ | ⟨e, r1, h1, h2, h3⟩
      · left
        refine ⟨by simp only [workAt, h1], ?_⟩
        cases hp : g.pending <;> simp [stepTask, hp, h2]
      · right
        refine ⟨e, g :: r1, by simp only [workAt, h1], ?_, by simp [h3]⟩
        cases hp : g.pending <;> simp [stepTask, hp, h2]

/-- The goroutines, all started, take the steps of a schedule. -/
theorem runActions_sched (sched : List Nat) (r : List Goroutine) (wg : Nat)
    (ev : List Event) :
    ∃ r1 ev1,
      runActions { unstarted := [], running := r, wg := wg, events := ev, returned := false,
                   panicked := false } (sched.map Action.work)
        = { unstarted := [], running := r1, wg := wg, events := ev ++ ev1, returned := false,
            panicked := false } ∧
      ev1 ++ (r1.map (fun g => g.pending)).flatten
        = runTasks sched (r.map (fun g => g.pending)) ∧
      r1.map (fun g => g.finished) = r.map (fun g => g.finished) := by
  induction sched generalizing r ev with
  | nil => exact ⟨r, [], by simp [runActions], by simp [runTasks], rfl⟩
  | cons i rest ih =>
    rcases workAt_stepTask r i with ⟨h1, h2⟩ | ⟨e, r1, h1, h2, h3⟩
    · obtain ⟨r2, ev2, h4, h5, h6⟩ := ih r ev
      refine ⟨r2, ev2, ?_, ?_, h6⟩
      · simp only [List.map_cons, runActions, CollectState.step, h1]
        exact h4
      · simp only [runTasks, h2]
        exact h5
    · obtain ⟨r2, ev2, h4, h5, h6⟩ := ih r1 (ev ++ [e])
      refine ⟨r2, e :: ev2, ?_, ?_, h6.trans h3⟩
      · simp only [List.map_cons, runActions, CollectState.step, h1]
        rw [h4]
        simp
      · simp only [runTasks, h2, List.cons_append, h5]

/-- The first event still to come is the next step of some goroutine. -/
theorem workAt_head (r : List Goroutine) (e : Event) (tl : List Event)
    (h : (r.map (fun g => g.pending)).flatten = e :: tl) :
    ∃ j r1, workAt r j = some (e, r1) ∧
      (r1.map (fun g => g.pending)).flatten = tl ∧
      r1.map (fun g => g.finished) = r.map (fun g => g.finished) := by
  induction r with
  | nil => simp at h
  | cons g gs ih =>
    cases hp : g.pending with
    | nil =>
      simp only [List.map_cons, List.flatten_cons, hp, List.nil_append] at h
      obtain ⟨j, r1, h1, h2, h3⟩ := ih h
      refine ⟨j + 1, g :: r1, by simp only [workAt, h1], ?_, by simp [h3]⟩
      simp [hp, h2]
    | cons e1 rest =>
      simp only [List.map_cons, List.flatten_cons, hp, List.cons_append, List.cons.injEq] at h
      obtain ⟨h1, h2⟩ := h
      subst h1
      exact ⟨0, { written := g.written ++ [e1], pending := rest, finished := g.finished } :: gs,
        by simp only [workAt, hp], by simpa using h2, by simp⟩

/-- The goroutines can run to the end of their `execute`s one after the other. -/
theorem runActions_drain (l : List Event) (r : List Goroutine) (wg : Nat) (ev : List Event)
    (h : (r.map (fun g => g.pending)).flatten = l) :
    ∃ acts r1,
      runActions { unstarted := [], running := r, wg := wg, events := ev, returned := false,
                   panicked := false } acts
        = { unstarted := [], running := r1, wg := wg, events := ev ++ l, returned := false,
            panicked := false } ∧
      (∀ g ∈ r1, g.pending = []) ∧
      r1.map (fun g => g.finished) = r.map (fun g => g.finished) := by
  induction l generalizing r ev with
  | nil =>
    refine ⟨[], r, by simp [runActions], ?_, rfl⟩
    intro g hg
    have h1 := List.flatten_eq_nil_iff.mp h g.pending (List.mem_map.mpr ⟨g, hg, rfl⟩)
    exact h1
  | cons e tl ih =>
    obtain ⟨j, r1, h1, h2, h3⟩ := workAt_head r e tl h
    obtain ⟨acts, r2, h4, h5, h6⟩ := ih r1 (ev ++ [e]) h2
    refine ⟨Action.work j :: acts, r2, ?_, h5, h6.trans h3⟩
    simp only [runActions, CollectState.step, h1]
    rw [h4]
    simp

/-- A goroutine whose `execute` is over and that has not called `wg.Done()` can
call it. -/
theorem finishAt_some (r : List Goroutine) (k : Nat)
    (hp : ∀ g ∈ r, g.pending = []) (hk : active r = k + 1) :
    ∃ j r1, finishAt r j = some r1 ∧ active r1 = k ∧ ∀ g ∈ r1, g.pending = [] := by
  induction r with
  | nil => simp [active] at hk
  | cons g gs ih =>
    have hg := hp g (List.mem_cons_self _ _)
    have hgs : ∀ g1 ∈ gs, g1.pending = [] := fun g1 h1 => hp g1 (List.mem_cons_of_mem _ h1)
    cases hf : g.finished with
    | false =>
      refine ⟨0, { written := g.written, pending := g.pending, finished := true } :: gs,
        by simp [finishAt, hg, hf], ?_, ?_⟩
      · simp only [active, List.countP_cons, hf, Bool.not_false, if_true] at hk
        simp only [active, List.countP_cons, Bool.not_true, Bool.false_eq_true, if_false]
        omega
      · intro g1 h1
        rcases List.mem_cons.mp h1 with h1 | h1
        · rw [h1]; exact hg
        · exact hgs g1 h1
    | true =>
      have hk1 : active gs = k + 1 := by
        simpa [active, List.countP_cons, hf] using hk
      obtain ⟨j, r1, h1, h2, h3⟩ := ih hgs hk1
      refine ⟨j + 1, g :: r1, by simp only [finishAt, h1], ?_, ?_⟩
      · simpa [active, List.countP_cons, hf] using h2
      · intro g1 hg1
        rcases List.mem_cons.mp hg1 with hg1 | hg1
        · rw [hg1]; exact hg
        · exact h3 g1 hg1

/-- The goroutines, their `execute`s over, can all call `wg.Done()`, which brings
the counter to zero. -/
theorem runActions_finish (k : Nat) (r : List Goroutine) (ev : List Event)
    (hp : ∀ g ∈ r, g.pending = []) (hk : active r = k) :
    ∃ acts r1,
      runActions { unstarted := [], running := r, wg := k, events := ev, returned := false,
                   panicked := false } acts
        = { unstarted := [], running := r1, wg := 0, events := ev, returned := false,
            panicked := false } := by
  induction k generalizing r with
  | zero => exact ⟨[], r, by simp [runActions]⟩
  | succ k ih =>
    obtain ⟨j, r1, h1, h2, h3⟩ := finishAt_some r k hp hk
    obtain ⟨acts, r2, h4⟩ := ih r1 h3 h2
    refine ⟨Action.finish j :: acts, r2, ?_⟩
    simp only [runActions, CollectState.step, h1, Nat.add_one_ne_zero, if_false,
      Nat.add_sub_cancel]
    exact h4

theorem active_map_finished (r : List Goroutine) :
    active r = (r.map (fun g => g.finished)).countP (fun b => !b) := by
  induction r with
  | nil => rfl
  | cons g gs ih =>
    simp only [active, List.map_cons, List.countP_cons] at ih ⊢
    rw [ih]

theorem active_fresh (tasks : List (List Event)) :
    active (tasks.map (fun t => ({ written := [], pending := t, finished := false } : Goroutine)))
      = tasks.length := by
  induction tasks with
  | nil => rfl
  | cons t ts ih =>
    simp only [active, List.map_cons, List.countP_cons, Bool.not_false, if_true,
      List.length_cons] at ih ⊢
    rw [ih]

/-- For every schedule of the goroutines there is a run of the steps of
`Collect` that returns having written the events of the schedule. -/
theorem runTasks_is_a_run (tasks : List (List Event)) (sched : List Nat) :
    ∃ actions,
      (runActions (collectStart tasks) actions).returned = true ∧
      (runActions (collectStart tasks) actions).events = runTasks sched tasks := by
  have hstart := runActions_start tasks [] tasks.length []
  obtain ⟨r1, ev1, h1, h2, h3⟩ := runActions_sched sched
    (tasks.map (fun t => ({ written := [], pending := t, finished := false } : Goroutine)))
    tasks.length []
  obtain ⟨acts2, r2, h4, h5, h6⟩ := runActions_drain
    (r1.map (fun g => g.pending)).flatten r1 tasks.length ([] ++ ev1) rfl
  have hactive : active r2 = tasks.length := by
    rw [active_map_finished, h6, h3, ← active_map_finished, active_fresh]
  obtain ⟨acts3, r3, h9⟩ := runActions_finish tasks.length r2
    ([] ++ ev1 ++ (r1.map (fun g => g.pending)).flatten) h5 hactive
  refine ⟨tasks.map (fun _ => Action.start) ++ (sched.map Action.work ++
    (acts2 ++ (acts3 ++ [Action.wait]))), ?_⟩
  have hrun : runActions (collectStart tasks)
      (tasks.map (fun _ => Action.start) ++ (sched.map Action.work ++
        (acts2 ++ (acts3 ++ [Action.wait]))))
      = { unstarted := [], running := r3, wg := 0,
          events := [] ++ ev1 ++ (r1.map (fun g => g.pending)).flatten,
          returned := true, panicked := false } := by
    rw [runActions_append]
    have h0 : runActions (collectStart tasks) (tasks.map (fun _ => Action.start))
        = { unstarted := [], running := tasks.map (fun t =>
              ({ written := [], pending := t, finished := false } : Goroutine)),
            wg := tasks.length, events := [], returned := false, panicked := false } := by
      simpa [collectStart] using hstart
    rw [h0, runActions_append, h1, runActions_append, h4, runActions_append, h9]
    simp [runActions, CollectState.step]
  have htasks : (tasks.map (fun t =>
      ({ written := [], pending := t, finished := false } : Goroutine))).map
      (fun g => g.pending) = tasks := by
    rw [List.map_map]
    exact List.map_id _
  rw [hrun]
  refine ⟨rfl, ?_⟩
  simp only [List.nil_append]
  rw [h2, htasks]

/-- What `Collect` writes under a schedule is what a run of its steps has
written when it returns. -/
theorem Collect_is_a_run (n : NodeCollector) (visit : List String)
    (seconds : String → Float64) (sched : List Nat) (events : List Event)
    (h : Collect n visit seconds sched = some events) :
    ∃ actions st, CollectSteps n visit seconds actions = some st ∧
      st.returned = true ∧ st.events = events := by
  unfold Collect at h
  cases hg : goroutines n seconds visit with
  | none => simp [hg] at h
  | some tasks =>
    simp only [hg, Option.some.injEq] at h
    obtain ⟨actions, h1, h2⟩ := runTasks_is_a_run tasks sched
    exact ⟨actions, runActions (collectStart tasks) actions, by simp only [CollectSteps, hg],
      h1, h2.trans h⟩

/-- What a run of the steps of `Collect` has written when it returns is, up to
the order, what `Collect` writes under any schedule. -/
theorem CollectSteps_perm_Collect (n : NodeCollector) (visit : List String)
    (seconds : String → Float64) (actions : List Action) (sched : List Nat)
    (st : CollectState) (events : List Event)
    (hrun : CollectSteps n visit seconds actions = some st)
    (hreturned : st.returned = true)
    (h : Collect n visit seconds sched = some events) :
    st.events.Perm events := by
  unfold Collect at h
  unfold CollectSteps at hrun
  cases hg : goroutines n seconds visit with
  | none => simp [hg] at h
  | some tasks =>
    simp only [hg, Option.some.injEq] at h hrun
    have hinv := collectInv_run tasks _ actions (collectInv_start tasks)
    rw [hrun] at hinv
    obtain ⟨_, _, _, _, hperm⟩ := collectInv_returned tasks st hinv hreturned
    rw [← h]
    exact hperm.trans (runTasks_perm sched tasks).symm

/-! ## Lemmas on the Rust port -/

/-- The Rust filter loop fails and succeeds as the Go filter loop does, with the
same error. -/
theorem rustFilterLoop_eq (cs : GoMap Bool) (filters : List String) (f0 : GoMap Bool) :
    rustFilterLoop cs filters =
      match filterLoop cs filters f0 with
      | .ok _ => .ok ()
      | .error err => .error err := by
  induction filters generalizing f0 with
  | nil => rfl
  | cons x rest ih =>
    cases hx : cs.get? x with
    | none => simp [rustFilterLoop, filterLoop, hx]
    | some b =>
      cases b with
      | false => simp [rustFilterLoop, filterLoop, hx]
      | true =>
        simp only [rustFilterLoop, filterLoop, hx, Bool.not_true, Bool.false_eq_true, if_false]
        exact ih _

/-- Without filters the second loop of the Rust port is the second loop of the
Go function. -/
theorem rustCollectorLoop_eq (lg : Logger) (cs : GoMap Bool) (l : List String)
    (s : State) (cols : GoMap Collector) :
    rustCollectorLoop lg cs l s cols = collectorLoop lg [] cs l s cols := by
  induction l generalizing s cols with
  | nil => rfl
  | cons key rest ih =>
    cases hcs : cs.get? key with
    | none =>
      simp only [rustCollectorLoop, collectorLoop, hcs]
      exact ih s cols
    | some enabled =>
      cases enabled with
      | false =>
        simp only [rustCollectorLoop, collectorLoop, hcs, Bool.false_eq_true, if_false,
          Bool.not_false, Bool.true_or, if_true]
        exact ih s cols
      | true =>
        cases hc : s.initiatedCollectors.get? key with
        | some c =>
          simp [rustCollectorLoop, collectorLoop, hcs, hc, ih]
        | none =>
          cases hfac : s.factories.get? key with
          | none => simp [rustCollectorLoop, collectorLoop, hcs, hc, hfac]
          | some factory =>
            cases hres : factory (lg.With "collector" key) with
            | error err => simp [rustCollectorLoop, collectorLoop, hcs, hc, hfac, hres]
            | ok update => simp [rustCollectorLoop, collectorLoop, hcs, hc, hfac, hres, ih]

/-- The Rust port and the Go function agree when the filter list is empty and
when a filter fails validation. -/
theorem rust_port_agrees (s : State) (logger : Logger) (visit filters : List String)
    (h : filters = [] ∨ ∃ err, filterLoop s.collectorState filters [] = .error err) :
    NodeCollector.new s logger visit filters = NewNodeCollector s logger visit filters := by
  rcases h with h | ⟨err, h⟩
  · subst h
    simp only [NodeCollector.new, NewNodeCollector, rustFilterLoop, filterLoop]
    exact rustCollectorLoop_eq logger s.collectorState visit s []
  · have h1 := rustFilterLoop_eq s.collectorState filters []
    rw [h] at h1
    simp only [NodeCollector.new, NewNodeCollector, h, h1]

/-! ## Lemmas on `pushMetric` -/

/-- For an integer of the closed set, by value or behind a non-nil pointer,
`pushMetric` sends the metric `MustNewConstMetric` builds from the converted
value, and panics when `MustNewConstMetric` does. -/
theorem pushMetric_integer (fieldDesc : Desc) (name : String) (value : GoValue)
    (valueType : ValueType) (labelValues : List String) (n : Int)
    (hvalue : value.integer = some n) :
    pushMetric fieldDesc name value valueType labelValues =
      (MustNewConstMetric fieldDesc valueType (float64OfInt n) labelValues).map
        (fun m => [Event.send m]) := by
  cases value with
  | uint8 val | uint16 val | uint32 val | uint64 val | int64 val =>
    simp only [GoValue.integer, Option.some.injEq] at hvalue
    subst hvalue
    simp only [pushMetric]
    cases MustNewConstMetric fieldDesc valueType (float64OfInt _) labelValues <;> rfl
  | ptrUint8 val | ptrUint16 val | ptrUint32 val | ptrUint64 val | ptrInt64 val =>
    cases val with
    | none => simp [GoValue.integer] at hvalue
    | some x =>
      simp only [GoValue.integer, Option.some.injEq] at hvalue
      subst hvalue
      simp only [pushMetric]
      cases MustNewConstMetric fieldDesc valueType (float64OfInt _) labelValues <;> rfl
  | _ => simp [GoValue.integer] at hvalue

/-- For an integer of the closed set `pushMetric` panics, and sends nothing,
when the descriptor carries an error, when the label values are not as many
as its variable labels, and when the value type is unknown. -/
theorem pushMetric_integer_panics (fieldDesc : Desc) (name : String) (value : GoValue)
    (valueType : ValueType) (labelValues : List String) (n : Int)
    (hvalue : value.integer = some n)
    (h : fieldDesc.hasError = true ∨ labelValues.length ≠ fieldDesc.variableLabels.length ∨
      valueType = .unknown) :
    pushMetric fieldDesc name value valueType labelValues = none := by
  rw [pushMetric_integer fieldDesc name value valueType labelValues n hvalue,
    MustNewConstMetric_none fieldDesc valueType _ labelValues h]
  rfl

/-- An integer of at most 53 bits is converted to `float64` without rounding. -/
theorem float64OfInt_exact (n : Int) (h : n.natAbs < 2 ^ 53) : float64OfInt n = (n : ℚ) := by
  unfold float64OfInt float64OfNat
  simp only [h, if_true]
  by_cases hn : n < 0
  · simp only [hn, if_true]
    have h1 : ((n.natAbs : ℤ) : ℚ) = ((-n : ℤ) : ℚ) := by
      congr 1
      omega
    rw [Int.cast_natCast] at h1
    rw [h1]
    push_cast
    ring
  · simp only [hn, if_false]
    have h1 : ((n.natAbs : ℤ) : ℚ) = ((n : ℤ) : ℚ) := by
      congr 1
      omega
    rw [Int.cast_natCast] at h1
    exact h1

/-! ## The claims -/

/-- Claim C1: after `DisableDefaultCollectors`, whatever the order in which the
keys are visited, every registered name absent from the forced set is disabled,
every registered name in the forced set keeps the enabled value it had, and the
registered names are the same as before (as are the other package variables). -/
theorem C1_disable_all_unforced (s : State) (visit : List String)
    (hvisit : visit.Perm s.collectorState.keys) :
    (∀ k, k ∈ s.collectorState.keys → s.forcedCollectors.get? k = none →
      (DisableDefaultCollectors s visit).collectorState.get? k = some false) ∧
    (∀ k, k ∈ s.collectorState.keys → s.forcedCollectors.get? k ≠ none →
      (DisableDefaultCollectors s visit).collectorState.get? k = s.collectorState.get? k) ∧
    (DisableDefaultCollectors s visit).collectorState.keys = s.collectorState.keys ∧
    (DisableDefaultCollectors s visit).forcedCollectors = s.forcedCollectors ∧
    (DisableDefaultCollectors s visit).initiatedCollectors = s.initiatedCollectors := by
  refine ⟨?_, ?_, ?_, rfl, rfl⟩
  · intro k hk hf
    obtain ⟨v, hv⟩ := (GoMap.get?_isSome_iff s.collectorState k).mpr hk
    have hmem : k ∈ visit := hvisit.mem_iff.mpr hk
    simp [DisableDefaultCollectors, get?_disableLoop, hmem, hf, hv]
  · intro k _ hf
    simp [DisableDefaultCollectors, get?_disableLoop, hf]
  · exact keys_disableLoop _ _ _

/-- The registry `cpu: true, meminfo: true, foo: false` with `cpu` forced
becomes `cpu: true, meminfo: false, foo: false` (claim C1 at this state,
visiting `foo`, `cpu`, `meminfo`). -/
theorem C1_disable_all_unforced_witness :
    List.Perm ["foo", "cpu", "meminfo"] exampleState.collectorState.keys ∧
    (DisableDefaultCollectors exampleState ["foo", "cpu", "meminfo"]).collectorState
      = [("cpu", true), ("meminfo", false), ("foo", false)] ∧
    (DisableDefaultCollectors exampleState ["foo", "cpu", "meminfo"]).collectorState.get? "meminfo"
      = some false ∧
    (DisableDefaultCollectors exampleState ["foo", "cpu", "meminfo"]).collectorState.get? "cpu"
      = exampleState.collectorState.get? "cpu" :=
  ⟨by decide, by decide,
    (C1_disable_all_unforced exampleState ["foo", "cpu", "meminfo"] (by decide)).1
      "meminfo" (by decide) (by decide),
    (C1_disable_all_unforced exampleState ["foo", "cpu", "meminfo"] (by decide)).2.1
      "cpu" (by decide) (by decide)⟩

/-- Claim C2: when `NewNodeCollector` succeeds, the names of the `Collectors`
map it returns are exactly the enabled names when the filter list is empty,
and exactly the enabled names that are among the filters when it is not; the
map holds each name once. -/
theorem C2_effective_set (s : State) (logger : Logger) (visit filters : List String)
    (nc : NodeCollector) (s1 : State)
    (hvisit : visit.Perm s.collectorState.keys)
    (hres : NewNodeCollector s logger visit filters = (.returned nc, s1)) :
    (filters = [] → ∀ k, k ∈ nc.Collectors.keys ↔ s.collectorState.get? k = some true) ∧
    (filters ≠ [] → ∀ k, k ∈ nc.Collectors.keys ↔
      (s.collectorState.get? k = some true ∧ k ∈ filters)) ∧
    nc.Collectors.keys.Nodup := by
  unfold NewNodeCollector at hres
  cases hf : filterLoop s.collectorState filters [] with
  | error err => simp [hf] at hres
  | ok f =>
    simp only [hf] at hres
    obtain ⟨h1, h2, _, _⟩ := collectorLoop_returned _ _ _ _ _ _ _ _ hres
    have hkeys : ∀ k, k ∈ nc.Collectors.keys ↔ Effective s.collectorState filters k := by
      intro k
      rw [h1, ← selected_iff_effective _ _ _ hf]
      constructor
      · rintro (hk | ⟨_, hs⟩)
        · simp [GoMap.keys] at hk
        · exact hs
      · intro hs
        refine Or.inr ⟨hvisit.mem_iff.mpr ?_, hs⟩
        exact (GoMap.get?_isSome_iff _ _).mp ⟨true, hs.1⟩
    refine ⟨?_, ?_, h2 (by simp [GoMap.keys])⟩
    · intro hnil k
      rw [hkeys]
      simp [Effective, hnil]
    · intro hne k
      rw [hkeys]
      simp [Effective, hne]

/-- At the example registry the filter `cpu` selects `cpu` alone, although
`meminfo` is enabled too (claim C2). -/
theorem C2_effective_set_witness :
    List.Perm ["foo", "meminfo", "cpu"] exampleState.collectorState.keys ∧
    (NewNodeCollector exampleState rootLogger ["foo", "meminfo", "cpu"] ["cpu"]).1
      = .returned { Collectors := [("cpu", { obj := 0, Update := ([], none) })],
                    logger := rootLogger } ∧
    (∀ k, k ∈ GoMap.keys [("cpu", ({ obj := 0, Update := ([], none) } : Collector))] ↔
      (exampleState.collectorState.get? k = some true ∧ k ∈ ["cpu"])) :=
  ⟨by decide, by decide,
    (C2_effective_set exampleState rootLogger ["foo", "meminfo", "cpu"] ["cpu"]
      { Collectors := [("cpu", { obj := 0, Update := ([], none) })], logger := rootLogger }
      (NewNodeCollector exampleState rootLogger ["foo", "meminfo", "cpu"] ["cpu"]).2
      (by decide) (Prod.ext (by decide) rfl)).2.1 (by decide)⟩

/-- Claim C3: when the first filter, in list order, that is not both registered
and enabled is a name absent from `collectorState`, `NewNodeCollector` returns
no `NodeCollector`: it fails with the error `missing collector: <name>` for
that filter, and leaves the package state as it was. -/
theorem C3_missing_collector (s : State) (logger : Logger) (visit filters : List String)
    (name : String)
    (hfirst : filters.find? (fun x => decide (s.collectorState.get? x ≠ some true)) = some name)
    (habsent : s.collectorState.get? name = none) :
    NewNodeCollector s logger visit filters = (.failed (.missingCollector name), s) ∧
    (ConstructionError.missingCollector name).Error = "missing collector: " ++ name := by
  refine ⟨?_, rfl⟩
  simp only [NewNodeCollector, filterLoop_missing _ _ _ _ hfirst habsent]

/-- The filters `ghost` with `ghost` unregistered: the missing-collector error
(claim C3 at the example registry). -/
theorem C3_missing_collector_witness :
    ["ghost"].find? (fun x => decide (exampleState.collectorState.get? x ≠ some true))
      = some "ghost" ∧
    exampleState.collectorState.get? "ghost" = none ∧
    (NewNodeCollector exampleState rootLogger ["cpu", "meminfo", "foo"] ["ghost"]).1
      = .failed (.missingCollector "ghost") ∧
    (ConstructionError.missingCollector "ghost").Error = "missing collector: ghost" :=
  ⟨by decide, by decide,
    congrArg Prod.fst
      (C3_missing_collector exampleState rootLogger ["cpu", "meminfo", "foo"] ["ghost"] "ghost"
        (by decide) (by decide)).1,
    by decide⟩

/-- Claim C4: when the first filter, in list order, that is not both registered
and enabled is a registered name whose flag is false, `NewNodeCollector` returns
no `NodeCollector`: it fails with the error `disabled collector: <name>` for
that filter, and leaves the package state as it was. -/
theorem C4_disabled_collector (s : State) (logger : Logger) (visit filters : List String)
    (name : String)
    (hfirst : filters.find? (fun x => decide (s.collectorState.get? x ≠ some true)) = some name)
    (hdisabled : s.collectorState.get? name = some false) :
    NewNodeCollector s logger visit filters = (.failed (.disabledCollector name), s) ∧
    (ConstructionError.disabledCollector name).Error = "disabled collector: " ++ name := by
  refine ⟨?_, rfl⟩
  simp only [NewNodeCollector, filterLoop_disabled _ _ _ _ hfirst hdisabled]

/-- The filters `cpu`, `foo` with `foo` registered and disabled: the
disabled-collector error (claim C4 at the example registry). -/
theorem C4_disabled_collector_witness :
    ["cpu", "foo"].find? (fun x => decide (exampleState.collectorState.get? x ≠ some true))
      = some "foo" ∧
    exampleState.collectorState.get? "foo" = some false ∧
    (NewNodeCollector exampleState rootLogger ["cpu", "meminfo", "foo"] ["cpu", "foo"]).1
      = .failed (.disabledCollector "foo") ∧
    (ConstructionError.disabledCollector "foo").Error = "disabled collector: foo" :=
  ⟨by decide, by decide,
    congrArg Prod.fst
      (C4_disabled_collector exampleState rootLogger ["cpu", "meminfo", "foo"] ["cpu", "foo"]
        "foo" (by decide) (by decide)).1,
    by decide⟩

/-- Claim C5: for filters that pass validation, in a registry that has a
factory for every registered name, and for every order in which the names are
visited, `NewNodeCollector` fails exactly when the factory of some name of the
effective set that is not in the instance cache returns an error; the error it
returns is then the error of such a factory, a failure carries no
`NodeCollector`, and the call does not panic. -/
theorem C5_factory_failure (s : State) (logger : Logger) (visit filters : List String)
    (hvisit : visit.Perm s.collectorState.keys)
    (hvalid : ∀ x ∈ filters, s.collectorState.get? x = some true)
    (hfac : ∀ k ∈ s.collectorState.keys, k ∈ s.factories.keys) :
    ((∃ e, (NewNodeCollector s logger visit filters).1 = .failed e) ↔
      ∃ k err, Effective s.collectorState filters k ∧
        s.initiatedCollectors.get? k = none ∧ FactoryFails s logger k err) ∧
    (∀ e, (NewNodeCollector s logger visit filters).1 = .failed e →
      ∃ k err, Effective s.collectorState filters k ∧
        s.initiatedCollectors.get? k = none ∧ FactoryFails s logger k err ∧
        e = .factoryError err) ∧
    (∀ e, (NewNodeCollector s logger visit filters).1 = .failed e →
      ∀ nc, (NewNodeCollector s logger visit filters).1 ≠ .returned nc) ∧
    (NewNodeCollector s logger visit filters).1 ≠ .panicked := by
  obtain ⟨f, hf⟩ := filterLoop_valid s.collectorState filters [] hvalid
  have hnew : NewNodeCollector s logger visit filters
      = collectorLoop logger f s.collectorState visit s [] := by
    simp only [NewNodeCollector, hf]
  have hfac1 : ∀ k ∈ visit, Selected s.collectorState f k → k ∈ s.factories.keys :=
    fun k hk _ => hfac k (hvisit.mem_iff.mp hk)
  have hfails := collectorLoop_fails logger f s.collectorState visit s [] hfac1
  have hfrom : ∀ e, (NewNodeCollector s logger visit filters).1 = .failed e →
      ∃ k err, Effective s.collectorState filters k ∧
        s.initiatedCollectors.get? k = none ∧ FactoryFails s logger k err ∧
        e = .factoryError err := by
    intro e he
    rw [hnew] at he
    obtain ⟨k, err, _, hs, hunc, hff, hee⟩ := collectorLoop_failed _ _ _ _ _ _ _ he
    exact ⟨k, err, (selected_iff_effective _ _ _ hf k).mp hs, hunc, hff, hee⟩
  refine ⟨⟨?_, ?_⟩, hfrom, ?_, ?_⟩
  · rintro ⟨e, he⟩
    obtain ⟨k, err, h1, h2, h3, _⟩ := hfrom e he
    exact ⟨k, err, h1, h2, h3⟩
  · rintro ⟨k, err, heff, hunc, hff⟩
    rw [hnew]
    refine hfails.2 k err (hvisit.mem_iff.mpr ?_) ((selected_iff_effective _ _ _ hf k).mpr heff)
      hunc hff
    exact (GoMap.get?_isSome_iff _ _).mp ⟨true, heff.1⟩
  · intro e he nc hnc
    rw [he] at hnc
    exact Outcome.noConfusion hnc
  · rw [hnew]
    exact hfails.1

/-- At the example registry with no filter, the factory of the enabled, uncached
`meminfo` fails, and `NewNodeCollector` fails with that error in whichever
order the names are visited (claim C5). -/
theorem C5_factory_failure_witness :
    List.Perm ["cpu", "foo", "meminfo"] exampleState.collectorState.keys ∧
    (∀ x ∈ ([] : List String), exampleState.collectorState.get? x = some true) ∧
    (∀ k ∈ exampleState.collectorState.keys, k ∈ exampleState.factories.keys) ∧
    (NewNodeCollector exampleState rootLogger ["cpu", "foo", "meminfo"] []).1
      = .failed (.factoryError { ptr := 7, msg := "no such device" }) ∧
    ((∃ e, (NewNodeCollector exampleState rootLogger ["cpu", "foo", "meminfo"] []).1
        = .failed e) ↔
      ∃ k err, Effective exampleState.collectorState [] k ∧
        exampleState.initiatedCollectors.get? k = none ∧
        FactoryFails exampleState rootLogger k err) :=
  ⟨by decide, by decide, by decide, by decide,
    (C5_factory_failure exampleState rootLogger ["cpu", "foo", "meminfo"] []
      (by decide) (by decide) (by decide)).1⟩

/-- Claim C6: of two successive successful calls of `NewNodeCollector` that
both select the name `n`, the second holds for `n` the very instance the first
holds, which is the cached one, and the second call does not invoke the
factory of `n`. -/
theorem C6_cached_instance (s0 s1 s2 : State) (logger1 logger2 : Logger)
    (visit1 visit2 filters1 filters2 : List String) (nc1 nc2 : NodeCollector)
    (n : String) (c : Collector)
    (hfirst : NewNodeCollector s0 logger1 visit1 filters1 = (.returned nc1, s1))
    (hsecond : NewNodeCollector s1 logger2 visit2 filters2 = (.returned nc2, s2))
    (hn1 : nc1.Collectors.get? n = some c)
    (hn2 : n ∈ nc2.Collectors.keys) :
    nc2.Collectors.get? n = some c ∧
    s1.initiatedCollectors.get? n = some c ∧
    s2.initiatedCollectors.get? n = some c ∧
    ∃ invoked, s2.factoryCalls = s1.factoryCalls ++ invoked ∧ n ∉ invoked := by
  unfold NewNodeCollector at hfirst hsecond
  cases hf1 : filterLoop s0.collectorState filters1 [] with
  | error err => simp [hf1] at hfirst
  | ok f1 =>
    cases hf2 : filterLoop s1.collectorState filters2 [] with
    | error err => simp [hf2] at hsecond
    | ok f2 =>
      simp only [hf1] at hfirst
      simp only [hf2] at hsecond
      obtain ⟨_, _, _, hagree1⟩ := collectorLoop_returned _ _ _ _ _ _ _ _ hfirst
      obtain ⟨_, _, _, hagree2⟩ := collectorLoop_returned _ _ _ _ _ _ _ _ hsecond
      have hs1 : s1.initiatedCollectors.get? n = some c :=
        hagree1 (fun k c1 hk => by simp [GoMap.get?] at hk) n c hn1
      obtain ⟨_, _, _, hmono, invoked, hcalls, hunc⟩ :=
        collectorLoop_state logger2 f2 s1.collectorState visit2 s1 []
      rw [hsecond] at hmono hcalls
      have hs2 : s2.initiatedCollectors.get? n = some c := hmono n c hs1
      obtain ⟨c2, hc2⟩ := (GoMap.get?_isSome_iff _ _).mpr hn2
      have hs2b := hagree2 (fun k c1 hk => by simp [GoMap.get?] at hk) n c2 hc2
      rw [hs2] at hs2b
      simp only [Option.some.injEq] at hs2b
      refine ⟨by rw [hc2, hs2b], hs1, hs2, invoked, hcalls, ?_⟩
      intro hmem
      have := hunc n hmem
      rw [hs1] at this
      exact Option.noConfusion this

/-- Two successive calls with the filter `cpu` at the example registry: the
second returns the instance the first created, and invokes no factory
(claim C6). -/
theorem C6_cached_instance_witness :
    (NewNodeCollector exampleState rootLogger ["cpu", "meminfo", "foo"] ["cpu"]).1
      = .returned { Collectors := [("cpu", { obj := 0, Update := ([], none) })],
                    logger := rootLogger } ∧
    (NewNodeCollector
        (NewNodeCollector exampleState rootLogger ["cpu", "meminfo", "foo"] ["cpu"]).2
        rootLogger ["foo", "meminfo", "cpu"] ["cpu"]).1
      = .returned { Collectors := [("cpu", { obj := 0, Update := ([], none) })],
                    logger := rootLogger } ∧
    (NewNodeCollector
        (NewNodeCollector exampleState rootLogger ["cpu", "meminfo", "foo"] ["cpu"]).2
        rootLogger ["foo", "meminfo", "cpu"] ["cpu"]).2.factoryCalls = ["cpu"] ∧
    (NewNodeCollector
        (NewNodeCollector exampleState rootLogger ["cpu", "meminfo", "foo"] ["cpu"]).2
        rootLogger ["foo", "meminfo", "cpu"] ["cpu"]).2.initiatedCollectors.get? "cpu"
      = some { obj := 0, Update := ([], none) } :=
  ⟨by decide, by decide, by decide,
    (C6_cached_instance exampleState
      (NewNodeCollector exampleState rootLogger ["cpu", "meminfo", "foo"] ["cpu"]).2
      (NewNodeCollector
        (NewNodeCollector exampleState rootLogger ["cpu", "meminfo", "foo"] ["cpu"]).2
        rootLogger ["foo", "meminfo", "cpu"] ["cpu"]).2
      rootLogger rootLogger ["cpu", "meminfo", "foo"] ["foo", "meminfo", "cpu"] ["cpu"] ["cpu"]
      { Collectors := [("cpu", { obj := 0, Update := ([], none) })], logger := rootLogger }
      { Collectors := [("cpu", { obj := 0, Update := ([], none) })], logger := rootLogger }
      "cpu" { obj := 0, Update := ([], none) }
      (Prod.ext (by decide) rfl) (Prod.ext (by decide) rfl) (by decide) (by decide)).2.2.1⟩

/-- Claim C7: for every collector name, every list of metrics `Update` sends
and every result of `Update`, `execute` does not panic and what it sends on the
channel is exactly the metrics of `Update` followed by two samples, the
duration gauge and then the success gauge, each with the one label value
`name`; between them and the metrics of `Update` it only writes its log
record. -/
theorem C7_execute_stream (name : String) (c : Collector) (logger : Logger)
    (seconds : Float64) :
    ∃ events record duration success,
      execute name c logger seconds = some events ∧
      events = c.Update.1.map Event.send ++
        [.log logger record, .send duration, .send success] ∧
      sent events = c.Update.1 ++ [duration, success] ∧
      duration = { desc := scrapeDurationDesc, valueType := .GaugeValue, value := seconds,
                   labelValues := [name] } ∧
      success.desc = scrapeSuccessDesc ∧ success.valueType = .GaugeValue ∧
      success.labelValues = [name] ∧
      scrapeDurationDesc.variableLabels.length = 1 ∧
      scrapeSuccessDesc.variableLabels.length = 1 :=
  ⟨_, scrapeRecord name seconds c.Update.2, durationSample name seconds,
    successSample name c.Update.2, execute_eq name c logger seconds, rfl,
    sent_execute name c logger seconds _ (execute_eq name c logger seconds),
    rfl, rfl, rfl, rfl, rfl, rfl⟩

/-- Claim C8: the last metric `execute` sends is the success gauge, and its
value is 1 exactly when `Update` returned no error; it is 0 when `Update`
returned `ErrNoData` and when it returned any other error. -/
theorem C8_success_value (name : String) (c : Collector) (logger : Logger)
    (seconds : Float64) :
    ∃ events success,
      execute name c logger seconds = some events ∧
      (sent events).getLast? = some success ∧
      success.desc = scrapeSuccessDesc ∧
      (success.value = 1 ↔ c.Update.2 = none) ∧
      (c.Update.2 = some ErrNoData → success.value = 0) ∧
      (∀ err, c.Update.2 = some err → success.value = 0) := by
  refine ⟨_, successSample name c.Update.2, execute_eq name c logger seconds, ?_, rfl, ?_, ?_, ?_⟩
  · rw [sent_execute name c logger seconds _ (execute_eq name c logger seconds)]
    simp
  · cases h : c.Update.2 with
    | none => simp [successSample]
    | some e => simp [successSample]
  · intro h
    simp [successSample, h]
  · intro err h
    simp [successSample, h]

/-- Claim C9: for every `NodeCollector` with `N` collectors, every result and
every metric list of their `Update`s, every order in which the goroutines are
started and every interleaving of their steps, `Collect` does not panic and
sends exactly the domain metrics of the collectors and `2 * N` telemetry
samples: for each selected name one duration sample and one success sample
labelled with it, whatever the other collectors returned. -/
theorem C9_collect_telemetry (n : NodeCollector) (visit : List String)
    (seconds : String → Float64) (sched : List Nat)
    (hmap : n.Collectors.keys.Nodup)
    (hvisit : visit.Perm n.Collectors.keys) :
    ∃ events, Collect n visit seconds sched = some events ∧
      (sent events).Perm (domainMetrics n ++ telemetry n seconds) ∧
      (telemetry n seconds).length = 2 * n.Collectors.length ∧
      ∀ name ∈ n.Collectors.keys,
        ((telemetry n seconds).filter
          (fun m => decide (m.desc = scrapeDurationDesc ∧ m.labelValues = [name]))).length = 1 ∧
        ((telemetry n seconds).filter
          (fun m => decide (m.desc = scrapeSuccessDesc ∧ m.labelValues = [name]))).length = 1 := by
  have hcollect : Collect n visit seconds sched = some (runTasks sched
      (visit.filterMap (fun name =>
        (n.Collectors.get? name).map (fun c =>
          c.Update.1.map Event.send ++
            [.log n.logger (scrapeRecord name (seconds name) c.Update.2),
             .send (durationSample name (seconds name)),
             .send (successSample name c.Update.2)])))) := by
    simp only [Collect, goroutines_eq]
  refine ⟨_, hcollect, ?_, telemetry_length n seconds, ?_⟩
  · have h1 := sent_perm _ _ (runTasks_perm sched
      (visit.filterMap (fun name =>
        (n.Collectors.get? name).map (fun c =>
          c.Update.1.map Event.send ++
            [.log n.logger (scrapeRecord name (seconds name) c.Update.2),
             .send (durationSample name (seconds name)),
             .send (successSample name c.Update.2)]))))
    refine h1.trans ?_
    have h2 := (List.Perm.filterMap (fun name =>
        (n.Collectors.get? name).map (fun c =>
          c.Update.1.map Event.send ++
            [Event.log n.logger (scrapeRecord name (seconds name) c.Update.2),
             Event.send (durationSample name (seconds name)),
             Event.send (successSample name c.Update.2)])) hvisit).flatten
    refine (sent_perm _ _ h2).trans ?_
    rw [GoMap.filterMap_keys n.Collectors
      (fun name c => c.Update.1.map Event.send ++
        [Event.log n.logger (scrapeRecord name (seconds name) c.Update.2),
         Event.send (durationSample name (seconds name)),
         Event.send (successSample name c.Update.2)]) hmap, sent_flatten_map]
    have h3 : (fun e : String × Collector => sent (e.2.Update.1.map Event.send ++
        [Event.log n.logger (scrapeRecord e.1 (seconds e.1) e.2.Update.2),
         Event.send (durationSample e.1 (seconds e.1)),
         Event.send (successSample e.1 e.2.Update.2)]))
        = fun e => e.2.Update.1 ++
            [durationSample e.1 (seconds e.1), successSample e.1 e.2.Update.2] := by
      funext e
      rw [sent_append, sent_map_send]
      rfl
    rw [h3]
    exact (List.flatMap_append_perm n.Collectors _ _).symm
  · intro name hname
    have hcount := List.count_eq_one_of_mem hmap hname
    exact ⟨(telemetry_count_duration n.Collectors seconds name).trans hcount,
      (telemetry_count_success n.Collectors seconds name).trans hcount⟩

/-- Three collectors, one succeeding, one returning `ErrNoData`, one failing
after sending a metric: under an interleaving of the three goroutines `Collect`
sends the one domain metric and six telemetry samples (claim C9). -/
theorem C9_collect_telemetry_witness :
    exampleScrape.Collectors.keys.Nodup ∧
    List.Perm ["c", "a", "b"] exampleScrape.Collectors.keys ∧
    ((Collect exampleScrape ["c", "a", "b"] (fun _ => 2) [1, 0, 2, 0, 5, 1]).map
        (fun events => (sent events).length)) = some 7 ∧
    (telemetry exampleScrape (fun _ => 2)).length = 6 ∧
    ∃ events, Collect exampleScrape ["c", "a", "b"] (fun _ => 2) [1, 0, 2, 0, 5, 1]
        = some events ∧
      (sent events).Perm (domainMetrics exampleScrape ++ telemetry exampleScrape (fun _ => 2)) :=
  ⟨by decide, by decide, by decide, by decide,
    (C9_collect_telemetry exampleScrape ["c", "a", "b"] (fun _ => 2) [1, 0, 2, 0, 5, 1]
      (by decide) (by decide)).imp (fun _ h => ⟨h.1, h.2.1⟩)⟩

/-- Claim C10: when `Update` returns a non-nil error `err`, `execute` writes
one log record, at debug level when `err` is the sentinel `ErrNoData` and at
error level otherwise, and the success gauge it sends is 0 in both cases.
`IsNoDataError` holds of the sentinel alone: another error object with the text
`collector returned no data` is not the sentinel. -/
theorem C10_error_classification (name : String) (c : Collector) (logger : Logger)
    (seconds : Float64) (err : GoError) (herr : c.Update.2 = some err) :
    (∃ events record success,
      execute name c logger seconds = some events ∧
      logged events = [record] ∧
      record.err = some err ∧
      (err = ErrNoData → record.level = .Debug) ∧
      (err ≠ ErrNoData → record.level = .Error) ∧
      (sent events).getLast? = some success ∧
      success.desc = scrapeSuccessDesc ∧ success.value = 0) ∧
    (∀ e, IsNoDataError e = true ↔ e = some ErrNoData) ∧
    (∀ p, p ≠ ErrNoData.ptr →
      IsNoDataError (some { ptr := p, msg := "collector returned no data" }) = false) := by
  refine ⟨⟨_, scrapeRecord name seconds c.Update.2, successSample name c.Update.2,
    execute_eq name c logger seconds, ?_, ?_, ?_, ?_, ?_, rfl, ?_⟩, ?_, ?_⟩
  · rw [logged_append, logged_map_send]
    rfl
  · rw [herr]
    by_cases he : err = ErrNoData
    · simp [scrapeRecord, he]
    · simp [scrapeRecord, he]
  · intro he
    simp [herr, scrapeRecord, he]
  · intro he
    simp [herr, scrapeRecord, he]
  · rw [sent_execute name c logger seconds _ (execute_eq name c logger seconds)]
    simp
  · simp [herr, successSample]
  · intro e
    simp [IsNoDataError]
  · intro p hp
    simp only [IsNoDataError, decide_eq_false_iff_not, Option.some.injEq]
    intro h
    exact hp (congrArg GoError.ptr h)

/-- A collector whose `Update` returns a new error with the text of the
sentinel: `execute` logs at error level and sends the success value 0
(claim C10). -/
theorem C10_error_classification_witness :
    lookalikeCollector.Update.2 = some { ptr := 1, msg := "collector returned no data" } ∧
    ((execute "cpu" lookalikeCollector rootLogger 2).map
        (fun events => (logged events).map (fun r => r.level))) = some [Level.Error] ∧
    ((execute "cpu" lookalikeCollector rootLogger 2).map
        (fun events => ((sent events).getLast?).map (fun m => m.value))) = some (some 0) ∧
    (∀ e, IsNoDataError e = true ↔ e = some ErrNoData) :=
  ⟨rfl, by decide, by decide,
    (C10_error_classification "cpu" lookalikeCollector rootLogger 2
      { ptr := 1, msg := "collector returned no data" } rfl).2.1⟩

/-- Claim C11, as amended: for a value of type `uint8`, `uint16`, `uint32`,
`uint64` or `int64`, given by value or through a non-nil pointer, and for a
descriptor, a value type and label values from which `MustNewConstMetric` can
build a metric (the descriptor carries no error of `NewDesc`, the value type
is `CounterValue`, `GaugeValue` or `UntypedValue`, the label values are as
many as the variable labels of the descriptor), `pushMetric` sends exactly one
metric, built from the given descriptor, value type and label values, whose
value is the integer converted to `float64` (the integer itself when it has
at most 53 bits); through a non-nil pointer it sends the same metric as by
value. -/
theorem C11_pushMetric_integer (fieldDesc : Desc) (name : String) (value : GoValue)
    (valueType : ValueType) (labelValues : List String) (n : Int)
    (hvalue : value.integer = some n)
    (hdesc : fieldDesc.hasError = false)
    (htype : valueType ≠ .unknown)
    (hlabels : labelValues.length = fieldDesc.variableLabels.length) :
    pushMetric fieldDesc name value valueType labelValues
      = some [.send { desc := fieldDesc, valueType := valueType, value := float64OfInt n,
                      labelValues := labelValues }] ∧
    pushMetric fieldDesc name value.addressOf valueType labelValues
      = pushMetric fieldDesc name value valueType labelValues ∧
    (n.natAbs < 2 ^ 53 → float64OfInt n = (n : ℚ)) := by
  refine ⟨?_, ?_, float64OfInt_exact n⟩
  · rw [pushMetric_integer fieldDesc name value valueType labelValues n hvalue,
      MustNewConstMetric_some fieldDesc valueType _ labelValues hdesc hlabels htype]
    rfl
  · cases value <;> rfl

/-- The largest `uint64`, by value and through a pointer, gives one metric of
value `2 ^ 64`, the nearest `float64`; the `uint8` 200 gives the value 200
(claim C11 as amended). -/
theorem C11_pushMetric_integer_witness :
    (GoValue.uint64 18446744073709551615).integer = some 18446744073709551615 ∧
    diskDesc.hasError = false ∧
    ValueType.CounterValue ≠ ValueType.unknown ∧
    ["sda"].length = diskDesc.variableLabels.length ∧
    pushMetric diskDesc "reads" (.uint64 18446744073709551615) .CounterValue ["sda"]
      = some [.send { desc := diskDesc, valueType := .CounterValue,
                      value := 18446744073709551616, labelValues := ["sda"] }] ∧
    pushMetric diskDesc "reads" (.ptrUint8 (some 200)) .CounterValue ["sda"]
      = some [.send { desc := diskDesc, valueType := .CounterValue,
                      value := 200, labelValues := ["sda"] }] ∧
    pushMetric diskDesc "reads" (.ptrUint64 (some 18446744073709551615)) .CounterValue ["sda"]
      = pushMetric diskDesc "reads" (.uint64 18446744073709551615) .CounterValue ["sda"] :=
  ⟨by decide, by decide, by decide, by decide, by decide, by decide,
    (C11_pushMetric_integer diskDesc "reads" (.uint64 18446744073709551615) .CounterValue
      ["sda"] 18446744073709551615 (by decide) (by decide) (by decide) (by decide)).2.1⟩

/-- Claim C11 as it was stated fails: `pushMetric` called with the `uint8` 1
and no label value for a descriptor with one variable label panics in
`MustNewConstMetric` and sends no metric; so it does with a descriptor whose
name is empty or whose label names repeat, under either validation of names,
and with a value type that is none of the three constants. -/
theorem C11_pushMetric_integer_counterexample :
    (GoValue.uint8 1).integer = some 1 ∧
    pushMetric diskDesc "reads" (.uint8 1) .CounterValue [] = none ∧
    (¬ ∃ m, pushMetric diskDesc "reads" (.uint8 1) .CounterValue [] = some [Event.send m]) ∧
    pushMetric (NewDesc .LegacyValidation "" "no name" [] []) "reads" (.uint8 1)
      .CounterValue [] = none ∧
    pushMetric (NewDesc .UTF8Validation "" "no name" [] []) "reads" (.uint8 1)
      .CounterValue [] = none ∧
    pushMetric (NewDesc .UTF8Validation "node_disk_reads" "reads" ["device", "device"] [])
      "reads" (.uint8 1) .CounterValue ["sda", "sdb"] = none ∧
    pushMetric diskDesc "reads" (.uint8 1) .unknown ["sda"] = none := by
  have h : pushMetric diskDesc "reads" (.uint8 1) .CounterValue [] = none := by decide
  refine ⟨by decide, h, ?_, by decide, by decide, by decide, by decide⟩
  rintro ⟨m, hm⟩
  rw [h] at hm
  exact Option.noConfusion hm

/-- Claim C12: for each of the pointer types `*uint8`, `*uint16`, `*uint32`,
`*uint64` and `*int64`, `pushMetric` called with a nil pointer of that type
sends nothing and does not panic, whatever the descriptor and the label
values. -/
theorem C12_pushMetric_nil_pointer (fieldDesc : Desc) (name : String)
    (valueType : ValueType) (labelValues : List String) :
    pushMetric fieldDesc name (.ptrUint8 none) valueType labelValues = some [] ∧
    pushMetric fieldDesc name (.ptrUint16 none) valueType labelValues = some [] ∧
    pushMetric fieldDesc name (.ptrUint32 none) valueType labelValues = some [] ∧
    pushMetric fieldDesc name (.ptrUint64 none) valueType labelValues = some [] ∧
    pushMetric fieldDesc name (.ptrInt64 none) valueType labelValues = some [] ∧
    ∀ value, value.isNilPointer = true →
      (pushMetric fieldDesc name value valueType labelValues).map sent = some [] := by
  refine ⟨rfl, rfl, rfl, rfl, rfl, ?_⟩
  intro value h
  cases value with
  | ptrUint8 val | ptrUint16 val | ptrUint32 val | ptrUint64 val | ptrInt64 val =>
    cases val with
    | none => rfl
    | some x => simp [GoValue.isNilPointer] at h
  | _ => simp [GoValue.isNilPointer] at h

/-- Claim C13: for a value whose dynamic type is outside the closed set
(`uint8`, `uint16`, `uint32`, `uint64`, `int64` and the pointers to them),
`pushMetric` sends nothing and does not panic, whatever the descriptor and the
label values. -/
theorem C13_pushMetric_other_type (fieldDesc : Desc) (name : String) (value : GoValue)
    (valueType : ValueType) (labelValues : List String)
    (houtside : value.inClosedSet = false) :
    pushMetric fieldDesc name value valueType labelValues = some [] := by
  cases value <;> first | rfl | simp [GoValue.inClosedSet] at houtside

/-- An `int32`, a `float64` and a string are outside the closed set and are
skipped, also with label values that do not fit the descriptor (claim C13). -/
theorem C13_pushMetric_other_type_witness :
    (GoValue.int32 5).inClosedSet = false ∧
    pushMetric diskDesc "reads" (.int32 5) .CounterValue ["sda"] = some [] ∧
    pushMetric diskDesc "reads" (.float64 2) .CounterValue [] = some [] ∧
    pushMetric diskDesc "reads" (.string "7") .CounterValue ["sda"] = some [] :=
  ⟨rfl,
    C13_pushMetric_other_type diskDesc "reads" (.int32 5) .CounterValue ["sda"] rfl,
    by decide, by decide⟩

/-- Claim C14: the flag action of a collector only adds its name to the forced
set and changes no enabled flag.  Hence for a registered name `n` that is not
forced: `DisableDefaultCollectors` followed by the flag action of `n` leaves `n`
disabled, and the flag action of `n` followed by `DisableDefaultCollectors`
leaves `n` with the enabled value it had. -/
theorem C14_force_order (s : State) (visit : List String) (n : String)
    (hvisit : visit.Perm s.collectorState.keys)
    (hregistered : n ∈ s.collectorState.keys)
    (hunforced : s.forcedCollectors.get? n = none) :
    (∀ name, (collectorFlagAction name s).collectorState = s.collectorState ∧
      (collectorFlagAction name s).forcedCollectors.get? name = some true ∧
      ∀ k, k ≠ name →
        (collectorFlagAction name s).forcedCollectors.get? k = s.forcedCollectors.get? k) ∧
    (collectorFlagAction n (DisableDefaultCollectors s visit)).collectorState.get? n
      = some false ∧
    (DisableDefaultCollectors (collectorFlagAction n s) visit).collectorState.get? n
      = s.collectorState.get? n := by
  refine ⟨?_, ?_, ?_⟩
  · intro name
    refine ⟨rfl, ?_, ?_⟩
    · simp [collectorFlagAction, GoMap.get?_set]
    · intro k hk
      simp [collectorFlagAction, GoMap.get?_set, hk]
  · obtain ⟨v, hv⟩ := (GoMap.get?_isSome_iff s.collectorState n).mpr hregistered
    have hmem : n ∈ visit := hvisit.mem_iff.mpr hregistered
    simp [collectorFlagAction, DisableDefaultCollectors, get?_disableLoop, hmem, hunforced, hv]
  · simp [collectorFlagAction, DisableDefaultCollectors, get?_disableLoop, GoMap.get?_set]

/-- At the example registry `meminfo` is enabled and not forced: disabling and
then forcing it leaves it disabled, forcing and then disabling leaves it
enabled (claim C14). -/
theorem C14_force_order_witness :
    List.Perm ["foo", "meminfo", "cpu"] exampleState.collectorState.keys ∧
    "meminfo" ∈ exampleState.collectorState.keys ∧
    exampleState.forcedCollectors.get? "meminfo" = none ∧
    (collectorFlagAction "meminfo"
        (DisableDefaultCollectors exampleState ["foo", "meminfo", "cpu"])).collectorState
      = [("cpu", true), ("meminfo", false), ("foo", false)] ∧
    (DisableDefaultCollectors (collectorFlagAction "meminfo" exampleState)
        ["foo", "meminfo", "cpu"]).collectorState
      = [("cpu", true), ("meminfo", true), ("foo", false)] ∧
    (collectorFlagAction "meminfo"
        (DisableDefaultCollectors exampleState ["foo", "meminfo", "cpu"])).collectorState.get?
      "meminfo" = some false :=
  ⟨by decide, by decide, by decide, by decide, by decide,
    (C14_force_order exampleState ["foo", "meminfo", "cpu"] "meminfo"
      (by decide) (by decide) (by decide)).2.1⟩

/-- Claim C15: under every operation (a registration, a flag action,
`DisableDefaultCollectors`, a call of `NewNodeCollector` whatever its outcome)
and under every sequence of them, a name that is in the instance cache stays
in it with the same instance.  `NewNodeCollector` invokes factories of
uncached names only, each at most once, and every entry the cache holds after
the call is an entry it held before or belongs to a name whose factory the
call invoked. -/
theorem C15_cache_invariant (s : State) :
    (∀ (op : Op) k c, s.initiatedCollectors.get? k = some c →
      (op.run s).initiatedCollectors.get? k = some c) ∧
    (∀ (ops : List Op) k c, s.initiatedCollectors.get? k = some c →
      (runOps s ops).initiatedCollectors.get? k = some c) ∧
    (∀ collector isDefaultEnabled factory,
      (registerCollector collector isDefaultEnabled factory s).initiatedCollectors
        = s.initiatedCollectors) ∧
    (∀ collector, (collectorFlagAction collector s).initiatedCollectors
      = s.initiatedCollectors) ∧
    (∀ visit, (DisableDefaultCollectors s visit).initiatedCollectors
      = s.initiatedCollectors) ∧
    ∀ logger visit filters, ∃ invoked,
      (NewNodeCollector s logger visit filters).2.factoryCalls = s.factoryCalls ++ invoked ∧
      invoked.Nodup ∧
      (∀ k ∈ invoked, s.initiatedCollectors.get? k = none) ∧
      ∀ k c, (NewNodeCollector s logger visit filters).2.initiatedCollectors.get? k = some c →
        s.initiatedCollectors.get? k = some c ∨ k ∈ invoked :=
  ⟨fun op k c h => Op.run_cache s op k c h,
    fun ops k c h => runOps_cache s ops k c h,
    fun _ _ _ => rfl, fun _ => rfl, fun _ => rfl,
    fun logger visit filters => (NewNodeCollector_state s logger visit filters).2.2.2.2⟩

/-- Claim C16: for every `NodeCollector`, whatever its collectors, `Describe`
sends exactly two descriptors, the scrape-duration descriptor and then the
scrape-success descriptor, each with the one variable label `collector`; what
it sends is the same for every `NodeCollector`. -/
theorem C16_describe (n : NodeCollector) :
    Describe n = [scrapeDurationDesc, scrapeSuccessDesc] ∧
    (Describe n).length = 2 ∧
    scrapeDurationDesc.variableLabels = ["collector"] ∧
    scrapeSuccessDesc.variableLabels = ["collector"] ∧
    scrapeDurationDesc.fqName = "node_scrape_collector_duration_seconds" ∧
    scrapeSuccessDesc.fqName = "node_scrape_collector_success" ∧
    Describe { Collectors := [], logger := n.logger } = Describe n ∧
    ∀ other : NodeCollector, Describe other = Describe n :=
  ⟨rfl, rfl, rfl, rfl, by decide, by decide, rfl, fun _ => rfl⟩

/-- Claim C18: in every state reached from the empty package state by
registrations, flag actions, `DisableDefaultCollectors` and calls of
`NewNodeCollector`, every name with an entry in `collectorState` has a factory;
`registerCollector` adds both, the entry holding the given default, and no
operation removes a factory.  Consequently `NewNodeCollector` never calls a
missing factory: it does not panic. -/
theorem C18_factory_invariant (ops : List Op) :
    (∀ k ∈ (runOps emptyState ops).collectorState.keys,
      k ∈ (runOps emptyState ops).factories.keys) ∧
    (∀ logger visit filters,
      (NewNodeCollector (runOps emptyState ops) logger visit filters).1 ≠ .panicked) ∧
    (∀ (s : State) collector isDefaultEnabled factory,
      (registerCollector collector isDefaultEnabled factory s).collectorState.get? collector
        = some isDefaultEnabled ∧
      (registerCollector collector isDefaultEnabled factory s).factories.get? collector
        = some factory) ∧
    (∀ (s : State) (op : Op) k, k ∈ s.factories.keys → k ∈ (op.run s).factories.keys) := by
  have hinv := runOps_factories emptyState ops (by simp [emptyState, GoMap.keys])
  refine ⟨hinv, ?_, ?_, ?_⟩
  · intro logger visit filters
    exact NewNodeCollector_no_panic _ logger visit filters hinv
  · intro s collector isDefaultEnabled factory
    simp [registerCollector, flagCell, GoMap.get?_set]
  · intro s op k hk
    exact (Op.run_factories s op).1 k hk

/-- Claim C20: when `NewNodeCollector` fails with a missing-collector or a
disabled-collector error, it has invoked no factory and the whole package
state (instance cache, enablement state, forced set, factory invocations) is
as it was before the call, whatever the filters before the offending one. -/
theorem C20_validation_failure_frame (s : State) (logger : Logger)
    (visit filters : List String) (name : String)
    (hfails : (NewNodeCollector s logger visit filters).1 = .failed (.missingCollector name) ∨
      (NewNodeCollector s logger visit filters).1 = .failed (.disabledCollector name)) :
    (NewNodeCollector s logger visit filters).2 = s ∧
    (NewNodeCollector s logger visit filters).2.factoryCalls = s.factoryCalls ∧
    (NewNodeCollector s logger visit filters).2.initiatedCollectors = s.initiatedCollectors ∧
    (NewNodeCollector s logger visit filters).2.collectorState = s.collectorState ∧
    (NewNodeCollector s logger visit filters).2.forcedCollectors = s.forcedCollectors := by
  have hstate : (NewNodeCollector s logger visit filters).2 = s := by
    unfold NewNodeCollector at hfails ⊢
    cases hf : filterLoop s.collectorState filters [] with
    | error err => rfl
    | ok f =>
      simp only [hf] at hfails
      rcases hfails with h | h
      · obtain ⟨_, _, _, _, _, _, he⟩ := collectorLoop_failed _ _ _ _ _ _ _ h
        exact ConstructionError.noConfusion he
      · obtain ⟨_, _, _, _, _, _, he⟩ := collectorLoop_failed _ _ _ _ _ _ _ h
        exact ConstructionError.noConfusion he
  rw [hstate]
  exact ⟨rfl, rfl, rfl, rfl, rfl⟩

/-- The filters `cpu`, `foo` at the example registry: `cpu` is valid, `foo` is
disabled, and the call leaves no trace, the factory of `cpu` is not invoked
(claim C20). -/
theorem C20_validation_failure_frame_witness :
    (NewNodeCollector exampleState rootLogger ["cpu", "meminfo", "foo"] ["cpu", "foo"]).1
      = .failed (.disabledCollector "foo") ∧
    (NewNodeCollector exampleState rootLogger ["cpu", "meminfo", "foo"]
      ["cpu", "foo"]).2.factoryCalls = [] ∧
    (NewNodeCollector exampleState rootLogger ["cpu", "meminfo", "foo"]
      ["cpu", "foo"]).2.initiatedCollectors = [] ∧
    (NewNodeCollector exampleState rootLogger ["cpu", "meminfo", "foo"] ["cpu", "foo"]).2
      = exampleState :=
  ⟨by decide, by decide, by decide,
    (C20_validation_failure_frame exampleState rootLogger ["cpu", "meminfo", "foo"]
      ["cpu", "foo"] "foo" (Or.inr (by decide))).1⟩

/-- Claim C17: at the moment `Collect` returns, under every scheduling of its
loop, of the goroutines and of `wg.Wait()`, every goroutine has been started,
has finished its `execute` and has called `wg.Done()` without a panic of the
`WaitGroup`: for every selected collector the events of its `execute` (the
metrics of `Update`, the log record, the duration sample, the success sample)
are, in this order, among the events up to the return. -/
theorem C17_join_barrier (n : NodeCollector) (visit : List String)
    (seconds : String → Float64) (actions : List Action) (st : CollectState)
    (hrun : CollectSteps n visit seconds actions = some st)
    (hreturned : st.returned = true) :
    st.panicked = false ∧
    st.unstarted = [] ∧
    (∀ g ∈ st.running, g.finished = true ∧ g.pending = []) ∧
    ∀ name c, name ∈ visit → n.Collectors.get? name = some c →
      List.Sublist
        (c.Update.1.map Event.send ++
          [Event.log n.logger (scrapeRecord name (seconds name) c.Update.2),
           Event.send (durationSample name (seconds name)),
           Event.send (successSample name c.Update.2)])
        st.events := by
  simp only [CollectSteps, goroutines_eq, Option.some.injEq] at hrun
  have hinv := collectInv_run _ _ actions (collectInv_start
    (visit.filterMap (fun name =>
      (n.Collectors.get? name).map (fun c =>
        c.Update.1.map Event.send ++
          [Event.log n.logger (scrapeRecord name (seconds name) c.Update.2),
           Event.send (durationSample name (seconds name)),
           Event.send (successSample name c.Update.2)]))))
  rw [hrun] at hinv
  obtain ⟨h1, h2, _, h4, _⟩ := collectInv_returned _ st hinv hreturned
  refine ⟨hinv.noPanic, h1, h2, ?_⟩
  intro name c hname hc
  apply h4
  rw [List.mem_filterMap]
  exact ⟨name, hname, by rw [hc]; rfl⟩

/-- A run of `Collect` on three collectors in which `wg.Wait()` is refused
while a goroutine is not done and returns at the end: all ten events are then
written (claim C17). -/
theorem C17_join_barrier_witness :
    ((CollectSteps exampleScrape ["a", "b", "c"] (fun _ => 2) (exampleActions.take 18)).map
      (fun st => (st.returned, st.wg))) = some (false, 0) ∧
    ((CollectSteps exampleScrape ["a", "b", "c"] (fun _ => 2) (exampleActions.take 11)).map
      (fun st => (st.returned, st.wg, st.events.length))) = some (false, 2, 5) ∧
    ((CollectSteps exampleScrape ["a", "b", "c"] (fun _ => 2) exampleActions).map
      (fun st => (st.returned, st.wg, st.events.length))) = some (true, 0, 10) ∧
    (∀ g ∈ ((CollectSteps exampleScrape ["a", "b", "c"] (fun _ => 2) exampleActions).getD
        (collectStart [])).running, g.finished = true ∧ g.pending = []) :=
  ⟨by decide, by decide, by decide,
    (C17_join_barrier exampleScrape ["a", "b", "c"] (fun _ => 2) exampleActions
      ((CollectSteps exampleScrape ["a", "b", "c"] (fun _ => 2) exampleActions).getD
        (collectStart []))
      (by decide) (by decide)).2.2.1⟩

/-- Claim C19, at two inputs where the Rust port and the Go function differ.
With two enabled collectors and the filter `cpu`, `NewNodeCollector` selects
`cpu` and the Rust `NodeCollector::new` selects `cpu` and `meminfo`.  At the
example registry with the filter `cpu`, `NewNodeCollector` succeeds and the
Rust function fails with the error of the factory of `meminfo`, a collector
the filter leaves out. -/
theorem C19_rust_port_differs :
    (NewNodeCollector portState rootLogger ["cpu", "meminfo"] ["cpu"]).1
      = .returned { Collectors := [("cpu", { obj := 0, Update := ([], none) })],
                    logger := rootLogger } ∧
    (NodeCollector.new portState rootLogger ["cpu", "meminfo"] ["cpu"]).1
      = .returned { Collectors := [("cpu", { obj := 0, Update := ([], none) }),
                                   ("meminfo", { obj := 1, Update := ([], none) })],
                    logger := rootLogger } ∧
    (NewNodeCollector exampleState rootLogger ["cpu", "meminfo", "foo"] ["cpu"]).1
      = .returned { Collectors := [("cpu", { obj := 0, Update := ([], none) })],
                    logger := rootLogger } ∧
    (NodeCollector.new exampleState rootLogger ["cpu", "meminfo", "foo"] ["cpu"]).1
      = .failed (.factoryError { ptr := 7, msg := "no such device" }) := by
  decide

end NodeExporter
